import Mathlib

/-!
Verification development for the listen-up-chat application: a shallow
embedding of the quiz state machine of `src/App.vue` (and of the guarded
variant of the same flow shipped alongside it) and of the audio playback
controller of `src/components/AudioPlayer.vue`, together with theorems
settling the behavioural claims of the specification.

Modelling conventions:
 - JavaScript numbers used for media positions and rates are modelled as
   rationals (`Rat`); `NaN` durations (metadata not yet loaded) are
   modelled by `Option.none`.
 - JavaScript strings are Lean strings; the JS string methods used by the
   code (`trim`, `startsWith`) are modelled over the character list.
 - Dynamic JS values flowing out of `JSON.parse` are modelled by the
   `Json` inductive, with JS truthiness made explicit.
 - Timestamps and `Date.now()`-based message ids are not modelled (they
   are used only for display and list keying); the `"loading"` sentinel
   id is modelled distinctly because loading-message removal keys on it.
-/

/-! ## JS value model -/

/-- Dynamic JSON/JS values (the result shape of `JSON.parse` and the raw
payloads stored in `storyData.questions`). -/
inductive Json where
  | null
  | bool (b : Bool)
  | num (n : Int)
  | str (s : String)
  | arr (xs : List Json)
  | obj (fields : List (String × Json))

/-- JS truthiness of a value (`if (x)`). -/
def Json.truthy : Json → Bool
  | .null => false
  | .bool b => b
  | .num n => n != 0
  | .str s => s != ""
  | .arr _ => true
  | .obj _ => true

/-- JS truthiness of a possibly-`undefined` value (`undefined` is falsy). -/
def jsTruthy : Option Json → Bool
  | none => false
  | some j => j.truthy

mutual

/-- JS `String(x)` conversion. Arrays stringify by joining the displayed
elements with commas; plain objects display as `[object Object]`. -/
def Json.display : Json → String
  | .null => "null"
  | .bool true => "true"
  | .bool false => "false"
  | .num n => toString n
  | .str s => s
  | .arr xs => Json.displayList xs
  | .obj _ => "[object Object]"

/-- Comma-joined display of a list of values (JS `Array.prototype.toString`). -/
def Json.displayList : List Json → String
  | [] => ""
  | [x] => Json.display x
  | x :: y :: tl => Json.display x ++ "," ++ Json.displayList (y :: tl)

end

/-- Property access `o[k]` on a JS value: `none` models `undefined`
(missing key, or receiver that is not an object). -/
def Json.get? (j : Json) (k : String) : Option Json :=
  match j with
  | .obj fields => (fields.find? (fun kv => kv.1 == k)).map (·.2)
  | _ => none

/-- Field lookup on an object's field list (`"k" in o` tests `isSome`). -/
def jsField (fields : List (String × Json)) (k : String) : Option Json :=
  (fields.find? (fun kv => kv.1 == k)).map (·.2)

/-- JS `String(x || "")`: the empty string when `x` is falsy or
`undefined`, otherwise the stringified value. -/
def jsDisplayOrEmpty (x : Option Json) : String :=
  match x with
  | none => ""
  | some j => if j.truthy then j.display else ""

/-- JS `Array.isArray(x) ? x : []`. -/
def jsArrayOrEmpty (x : Option Json) : List Json :=
  match x with
  | some (.arr xs) => xs
  | _ => []

/-! ## JS string methods -/

/-- Whitespace recognised by the model of `String.prototype.trim`
(the ASCII subset; the code only trims backend-produced text). -/
def jsWhitespaceChar (c : Char) : Bool :=
  c == ' ' || c == '\t' || c == '\n' || c == '\r'

/-- Model of `String.prototype.trim`. -/
def jsTrim (s : String) : String :=
  String.mk ((((s.data.dropWhile jsWhitespaceChar).reverse).dropWhile jsWhitespaceChar).reverse)

/-- Model of `String.prototype.startsWith`. -/
def jsStartsWith (s p : String) : Bool :=
  p.data.isPrefixOf s.data

/-! ## AudioPlaybackController (`src/components/AudioPlayer.vue`) -/

/-- The state owned by the audio player component together with the
observable state of its single `HTMLAudioElement`.  `duration = none`
models `NaN` (metadata not loaded); `consoleErrors` counts
`console.error` invocations (the only sink for caught playback
failures). -/
structure AudioState where
  src : String
  currentTime : Rat
  duration : Option Rat
  paused : Bool
  playbackRateEl : Rat
  isPlaying : Bool
  audioProgress : Rat
  isDragging : Bool
  playbackRateRef : Rat
  showSpeedOptions : Bool
  audioDuration : Rat
  consoleErrors : Nat
deriving DecidableEq

/-- Component state right after setup: a fresh `Audio()` element with
`playbackRate` set to `props.initialPlaybackRate`, all refs at their
declared initial values. -/
def initAudioState (initialPlaybackRate : Rat) : AudioState :=
  { src := ""
    currentTime := 0
    duration := none
    paused := true
    playbackRateEl := initialPlaybackRate
    isPlaying := false
    audioProgress := 0
    isDragging := false
    playbackRateRef := initialPlaybackRate
    showSpeedOptions := false
    audioDuration := 0
    consoleErrors := 0 }

/-- The fixed playback multipliers offered by the speed menu. -/
def speedOptions : List Rat := [1/2, 3/4, 1, 5/4, 3/2]

/-- Truthiness of `audioElement.duration` (`NaN` and `0` are falsy). -/
def durTruthy : Option Rat → Bool
  | none => false
  | some d => d != 0

/-- Clamp a fraction into `[0, 1]` (`Math.max(0, Math.min(1, position))`). -/
def clamp01 (x : Rat) : Rat := max 0 (min 1 x)

/-- Assigning `audioElement.currentTime`: the media element clamps the
requested time into `[0, duration]` (platform behaviour, modelled because
the component relies on the element to hold the applied position). -/
def mediaSetTime (d t : Rat) : Rat := max 0 (min d t)

/-- `updateProgress`: recompute `audioProgress` from the element, only
when the duration is a finite positive number. -/
def updateProgress (s : AudioState) : AudioState :=
  match s.duration with
  | some d => if 0 < d then { s with audioProgress := min 100 (max 0 (s.currentTime / d * 100)) } else s
  | none => s

/-- `updateProgressFromEvent` (the drag entry point), with the event
already reduced to the raw fraction `(e.clientX - rect.left) / rect.width`. -/
def updateProgressFromEvent (pos : Rat) (s : AudioState) : AudioState :=
  let newPosition := max 0 (min 1 pos)
  let s1 := { s with audioProgress := newPosition * 100 }
  match s.duration with
  | some d => if d != 0 then { s1 with currentTime := mediaSetTime d (newPosition * d) } else s1
  | none => s1

/-- `handleProgressClick` (the click entry point), with the event already
reduced to the raw click fraction.  The guard
`!audioElement.duration || isDragging.value` returns early when the
duration is `NaN` (no metadata), `0`, or a drag is in progress. -/
def handleProgressClick (pos : Rat) (s : AudioState) : AudioState :=
  match s.duration with
  | none => s
  | some d =>
    if d == 0 || s.isDragging then s
    else
      let newTime := pos * d
      let s1 := { s with currentTime := mediaSetTime d newTime,
                         audioProgress := newTime / d * 100 }
      if s.paused then updateProgress s1 else s1

/-- `getFullAudioUrl`: absolute URLs (recognised by the `http` prefix)
are used verbatim, otherwise `VITE_API_BASE_URL` (here `base`) is
prepended. -/
def getFullAudioUrl (base url : String) : String :=
  if jsStartsWith url "http" then url else base ++ url

/-- `togglePlayPause`. `playOk = false` models `audioElement.play()`
returning a rejected promise (e.g. blocked autoplay): the element then
stays paused and the rejection is routed to `console.error` by the
attached `.catch`. -/
def togglePlayPause (base url : String) (playOk : Bool) (s : AudioState) : AudioState :=
  if url = "" then s
  else if s.isPlaying then
    { s with paused := true, isPlaying := false }
  else
    let s1 := if s.src ≠ getFullAudioUrl base url then { s with src := getFullAudioUrl base url } else s
    let s2 := if playOk then { s1 with paused := false }
              else { s1 with consoleErrors := s1.consoleErrors + 1 }
    { s2 with isPlaying := true }

/-- `setPlaybackSpeed`. -/
def setPlaybackSpeed (speed : Rat) (s : AudioState) : AudioState :=
  { s with playbackRateRef := speed, playbackRateEl := speed, showSpeedOptions := false }

/-- `audioElement.load()`: the media load algorithm discards the current
playback position and metadata, leaves the element paused, and resets
`playbackRate` to `defaultPlaybackRate`; the component never assigns
`defaultPlaybackRate`, so that reset target is the element's initial
`1`. -/
def loadElement (s : AudioState) : AudioState :=
  { s with currentTime := 0, duration := none, paused := true, playbackRateEl := 1 }

/-- `initAudio`: assigns `props.audioUrl` (unresolved) to the element and
calls `load()`; the event-listener registrations carry no state. -/
def initAudio (url : String) (s : AudioState) : AudioState :=
  loadElement { s with src := url }

/-- The `watch(() => props.audioUrl)` handler: `cleanup()` pauses the
element, the resolved URL is assigned, progress refs are reset, then
`initAudio()` re-assigns the raw URL and `load()` runs. -/
def watchAudioUrl (base newUrl : String) (s : AudioState) : AudioState :=
  if newUrl = "" then s
  else
    let s1 := { s with paused := true }
    let s2 := { s1 with src := getFullAudioUrl base newUrl, audioProgress := 0, audioDuration := 0 }
    let s3 := initAudio newUrl s2
    loadElement s3

/-- `resetAudio`: rewind to the beginning; restart playback if it was
marked as playing. -/
def resetAudio (playOk : Bool) (s : AudioState) : AudioState :=
  let s1 := { s with currentTime := 0, audioProgress := 0 }
  if s1.isPlaying then
    (if playOk then { s1 with paused := false } else { s1 with consoleErrors := s1.consoleErrors + 1 })
  else s1

/-- All durations a real media element reports are nonnegative. -/
def durNonneg (s : AudioState) : Prop := ∀ d, s.duration = some d → 0 ≤ d

lemma updateProgress_currentTime (s : AudioState) :
    (updateProgress s).currentTime = s.currentTime := by
  unfold updateProgress
  rcases s.duration with _ | d
  · rfl
  · dsimp only; split <;> rfl

lemma updateProgress_playbackRateEl (s : AudioState) :
    (updateProgress s).playbackRateEl = s.playbackRateEl := by
  unfold updateProgress
  rcases s.duration with _ | d
  · rfl
  · dsimp only; split <;> rfl

lemma updateProgress_playbackRateRef (s : AudioState) :
    (updateProgress s).playbackRateRef = s.playbackRateRef := by
  unfold updateProgress
  rcases s.duration with _ | d
  · rfl
  · dsimp only; split <;> rfl

/-! ### Claim C5 (seek clamping) -/

lemma clamp01_idem (x : Rat) : clamp01 (clamp01 x) = clamp01 x := by
  unfold clamp01
  rcases le_total x 0 with h | h
  · simp [min_eq_right (le_trans h zero_le_one), max_eq_left, h]
  · rcases le_total x 1 with h1 | h1
    · rw [min_eq_right h1, max_eq_right h, min_eq_right h1, max_eq_right h]
    · rw [min_eq_left h1, max_eq_right zero_le_one, min_eq_left le_rfl,
        max_eq_right zero_le_one]

lemma mediaSetTime_clamp (d pos : Rat) (hd : 0 ≤ d) :
    mediaSetTime d (pos * d) = mediaSetTime d (clamp01 pos * d) := by
  unfold mediaSetTime clamp01
  rcases le_total pos 0 with h | h
  · have h1 : pos * d ≤ 0 := mul_nonpos_of_nonpos_of_nonneg h hd
    have h2 : min 1 pos ≤ 0 := le_trans (min_le_right 1 pos) h
    rw [max_eq_left h2, zero_mul, min_comm d 0, min_eq_left hd]
    rcases le_total (min d (pos * d)) 0 with h3 | h3
    · rw [max_eq_left h3, max_eq_left le_rfl]
    · have : min d (pos * d) ≤ 0 := le_trans (min_le_right _ _) h1
      rw [max_eq_left this, max_eq_left le_rfl]
  · rcases le_total pos 1 with h1 | h1
    · rw [min_eq_right h1, max_eq_right h]
    · have h2 : d ≤ pos * d := by
        calc d = 1 * d := (one_mul d).symm
        _ ≤ pos * d := mul_le_mul_of_nonneg_right h1 hd
      rw [min_eq_left h1, max_eq_right zero_le_one, one_mul,
        min_eq_left h2, min_eq_left le_rfl]

/-- C5 (amended): the drag entry point applies the clamped fraction, so
it is invariant under pre-clamping; the click entry point does not clamp
the fraction, but the element's `currentTime` setter clamps the applied
time, and when the element is paused the forced `updateProgress` also
re-clamps `audioProgress`, so the click path agrees with its clamped run
on `currentTime` always, and on the whole state when paused.  (For a
playing element the click path's `audioProgress` is left unclamped; see
the counterexample.) -/
theorem c5_seek_clamp :
    (∀ (pos : Rat) (s : AudioState),
      updateProgressFromEvent pos s = updateProgressFromEvent (clamp01 pos) s) ∧
    (∀ (pos : Rat) (s : AudioState), durNonneg s →
      (handleProgressClick pos s).currentTime = (handleProgressClick (clamp01 pos) s).currentTime) ∧
    (∀ (pos : Rat) (s : AudioState), durNonneg s → s.paused = true →
      handleProgressClick pos s = handleProgressClick (clamp01 pos) s) := by
  refine ⟨fun pos s => ?_, fun pos s hnn => ?_, fun pos s hnn hp => ?_⟩
  · unfold updateProgressFromEvent
    have h : max 0 (min 1 (clamp01 pos)) = max 0 (min 1 pos) := clamp01_idem pos
    simp only [h]
  · unfold handleProgressClick
    rcases hsd : s.duration with _ | d
    · simp [hsd]
    · have hd : 0 ≤ d := hnn d hsd
      simp only [hsd]
      by_cases hz : d = 0
      · simp [hz]
      · by_cases hdr : s.isDragging
        · simp [hdr]
        · have hms : mediaSetTime d (pos * d) = mediaSetTime d (clamp01 pos * d) :=
            mediaSetTime_clamp d pos hd
          by_cases hps : s.paused <;>
            simp [hz, hdr, hps, hms, updateProgress_currentTime]
  · unfold handleProgressClick
    rcases hsd : s.duration with _ | d
    · simp [hsd]
    · have hd : 0 ≤ d := hnn d hsd
      simp only [hsd]
      by_cases hz : d = 0
      · simp [hz]
      · by_cases hdr : s.isDragging
        · simp [hdr]
        · have hms : mediaSetTime d (pos * d) = mediaSetTime d (clamp01 pos * d) :=
            mediaSetTime_clamp d pos hd
          have hdpos : 0 < d := lt_of_le_of_ne hd (Ne.symm hz)
          simp [hz, hdr, hp, updateProgress, hms, hdpos]

/-- A playing element with a 10-second track, not mid-drag. -/
def c5State : AudioState :=
  { initAudioState 1 with duration := some 10, paused := false }

/-- C5 counterexample: clicking at fraction `2` on a playing element
leaves `audioProgress` at `200`, while the clamped fraction `1` yields
`100` — the click path does not behave like its clamped counterpart. -/
theorem c5_counterexample :
    (handleProgressClick 2 c5State).audioProgress = 200 ∧
    (handleProgressClick (clamp01 2) c5State).audioProgress = 100 ∧
    handleProgressClick 2 c5State ≠ handleProgressClick (clamp01 2) c5State := by
  have h1 : (handleProgressClick 2 c5State).audioProgress = 200 := by
    norm_num [handleProgressClick, c5State, initAudioState, durTruthy, mediaSetTime, updateProgress]
  have h2 : (handleProgressClick (clamp01 2) c5State).audioProgress = 100 := by
    norm_num [handleProgressClick, c5State, initAudioState, durTruthy, mediaSetTime,
      updateProgress, clamp01]
  refine ⟨h1, h2, fun h => ?_⟩
  rw [h, h2] at h1
  norm_num at h1

/-- C5 witness: the amended clamping properties at fraction `3` on a
paused 10-second element. -/
theorem c5_seek_clamp_witness :
    (durNonneg c5State ∧ durNonneg { c5State with paused := true } ∧
      ({ c5State with paused := true } : AudioState).paused = true) ∧
    updateProgressFromEvent 3 c5State = updateProgressFromEvent (clamp01 3) c5State ∧
    (handleProgressClick 3 c5State).currentTime =
      (handleProgressClick (clamp01 3) c5State).currentTime ∧
    handleProgressClick 3 { c5State with paused := true } =
      handleProgressClick (clamp01 3) { c5State with paused := true } := by
  have hnn : durNonneg c5State := by intro d hd; cases hd; norm_num
  have hnn2 : durNonneg { c5State with paused := true } := by intro d hd; cases hd; norm_num
  exact ⟨⟨hnn, hnn2, rfl⟩, c5_seek_clamp.1 3 c5State, c5_seek_clamp.2.1 3 c5State hnn,
    c5_seek_clamp.2.2 3 { c5State with paused := true } hnn2 rfl⟩

/-! ### Claim C6 (playback start failure) -/

/-- C6 (amended): when starting playback fails, the rejection is caught
and logged (one `console.error`), nothing else beyond the source
attachment changes — in particular no user-facing error exists — but
`isPlaying` is still set to `true`, so the play control does enter the
visual "playing" state despite the failure. -/
theorem c6_play_failure (base url : String) (s : AudioState)
    (hnp : s.isPlaying = false) (hurl : url ≠ "") :
    togglePlayPause base url false s =
      { s with src := getFullAudioUrl base url,
               consoleErrors := s.consoleErrors + 1,
               isPlaying := true } := by
  obtain ⟨src, ct, du, pa, pre, ip, ap, dr, prr, sso, ad, ce⟩ := s
  simp only at hnp
  subst hnp
  by_cases hsrc : src = getFullAudioUrl base url
  · subst hsrc
    simp [togglePlayPause, hurl]
  · simp [togglePlayPause, hurl, hsrc]

/-- C6 counterexample: with a fresh component and a rejecting `play()`,
`isPlaying` is `true` after `togglePlayPause` — the claim's assertion
that the control never enters the "playing" state on failure is false. -/
theorem c6_counterexample :
    (togglePlayPause "http://api" "http://api/a.mp3" false (initAudioState 1)).isPlaying = true := by
  decide

/-- C6 witness: the amended failure semantics at a concrete input. -/
theorem c6_play_failure_witness :
    ((initAudioState 1).isPlaying = false ∧ ("b.mp3" : String) ≠ "") ∧
    togglePlayPause "http://api/" "b.mp3" false (initAudioState 1) =
      { initAudioState 1 with src := getFullAudioUrl "http://api/" "b.mp3",
                              consoleErrors := 1,
                              isPlaying := true } := by
  exact ⟨⟨rfl, by decide⟩, c6_play_failure "http://api/" "b.mp3" (initAudioState 1) rfl (by decide)⟩

/-! ### Claim C7 (playback rate persistence) -/

/-- C7 (amended): `setPlaybackSpeed` takes effect immediately on the
element and the displayed rate, and neither seek entry point touches
either; on a URL change the watcher's `load()` calls reset the element's
rate to `defaultPlaybackRate` — never assigned by the component, hence
`1`, which coincides with the configured initial rate only because
`initialPlaybackRate` is never overridden — while the displayed rate ref
is not reset and survives the new story, diverging from the element. -/
theorem c7_rate_persistence :
    (∀ (r : Rat) (s : AudioState),
      (setPlaybackSpeed r s).playbackRateEl = r ∧ (setPlaybackSpeed r s).playbackRateRef = r) ∧
    (∀ (pos : Rat) (s : AudioState),
      (updateProgressFromEvent pos s).playbackRateEl = s.playbackRateEl ∧
      (updateProgressFromEvent pos s).playbackRateRef = s.playbackRateRef ∧
      (handleProgressClick pos s).playbackRateEl = s.playbackRateEl ∧
      (handleProgressClick pos s).playbackRateRef = s.playbackRateRef) ∧
    (∀ (base newUrl : String) (s : AudioState), newUrl ≠ "" →
      (watchAudioUrl base newUrl s).playbackRateEl = 1 ∧
      (watchAudioUrl base newUrl s).playbackRateRef = s.playbackRateRef) := by
  refine ⟨fun r s => ⟨rfl, rfl⟩, fun pos s => ?_, fun base newUrl s hurl => ?_⟩
  · refine ⟨?_, ?_, ?_, ?_⟩
    · unfold updateProgressFromEvent
      rcases s.duration with _ | d
      · rfl
      · dsimp only; split <;> rfl
    · unfold updateProgressFromEvent
      rcases s.duration with _ | d
      · rfl
      · dsimp only; split <;> rfl
    · unfold handleProgressClick
      rcases s.duration with _ | d
      · rfl
      · dsimp only
        split
        · rfl
        · split
          · rw [updateProgress_playbackRateEl]
          · rfl
    · unfold handleProgressClick
      rcases s.duration with _ | d
      · rfl
      · dsimp only
        split
        · rfl
        · split
          · rw [updateProgress_playbackRateRef]
          · rfl
  · unfold watchAudioUrl initAudio loadElement
    rw [if_neg hurl]
    exact ⟨rfl, rfl⟩

/-- C7 counterexample: after selecting the `1.5` multiplier, a URL
change resets the element's rate to `1` (the load algorithm's
`defaultPlaybackRate`) but leaves the displayed rate at `1.5` — the
user-visible selected rate is not reset to the configured initial rate,
and the speed indicator disagrees with the element after the new
story. -/
theorem c7_counterexample :
    (watchAudioUrl "http://api" "/b.mp3" (setPlaybackSpeed (3/2) (initAudioState 1))).playbackRateRef = 3/2 ∧
    (watchAudioUrl "http://api" "/b.mp3" (setPlaybackSpeed (3/2) (initAudioState 1))).playbackRateEl = 1 ∧
    ((3 : Rat)/2) ≠ 1 := by
  refine ⟨?_, ?_, by norm_num⟩ <;>
    simp [watchAudioUrl, initAudio, loadElement, setPlaybackSpeed, initAudioState]

/-- C7 witness: the amended rate behaviour across a concrete URL
change. -/
theorem c7_rate_persistence_witness :
    (("/w.mp3" : String) ≠ "") ∧
    (watchAudioUrl "http://api" "/w.mp3" (setPlaybackSpeed (5/4) (initAudioState 1))).playbackRateEl = 1 ∧
    (watchAudioUrl "http://api" "/w.mp3" (setPlaybackSpeed (5/4) (initAudioState 1))).playbackRateRef =
      (setPlaybackSpeed (5/4) (initAudioState 1)).playbackRateRef := by
  exact ⟨by decide,
    (c7_rate_persistence.2.2 "http://api" "/w.mp3" (setPlaybackSpeed (5/4) (initAudioState 1)) (by decide)).1,
    (c7_rate_persistence.2.2 "http://api" "/w.mp3" (setPlaybackSpeed (5/4) (initAudioState 1)) (by decide)).2⟩

/-! ### Claim C8 (audio URL resolution) -/

/-- C8 (amended): `getFullAudioUrl` implements the resolution rule
(absolute `http…` URLs verbatim, otherwise the configured base location
is prepended) and `togglePlayPause` attaches through it; but `initAudio`
assigns `props.audioUrl` unresolved, and since the URL-change watcher
calls `initAudio` after its own resolved assignment, the element's `src`
after a URL change is the unresolved URL — the rule is not applied at
every call site. -/
theorem c8_url_resolution :
    (∀ base url, jsStartsWith url "http" = true → getFullAudioUrl base url = url) ∧
    (∀ base url, jsStartsWith url "http" = false → getFullAudioUrl base url = base ++ url) ∧
    (∀ (base url : String) (playOk : Bool) (s : AudioState),
      s.isPlaying = false → url ≠ "" →
      (togglePlayPause base url playOk s).src = getFullAudioUrl base url) ∧
    (∀ (url : String) (s : AudioState), (initAudio url s).src = url) ∧
    (∀ (base url : String) (s : AudioState), url ≠ "" →
      (watchAudioUrl base url s).src = url) := by
  refine ⟨fun base url h => by simp [getFullAudioUrl, h],
    fun base url h => by simp [getFullAudioUrl, h],
    fun base url playOk s hnp hurl => ?_, fun url s => rfl,
    fun base url s hurl => by simp [watchAudioUrl, initAudio, loadElement, hurl]⟩
  unfold togglePlayPause
  rw [if_neg hurl, hnp]
  by_cases hsrc : s.src = getFullAudioUrl base url <;> by_cases hok : playOk <;>
    simp [hsrc, hok]

/-- C8 counterexample: for a relative URL the watcher's net effect (via
`initAudio`) attaches `/a.mp3` itself, not the resolved
`http://api/a.mp3`. -/
theorem c8_counterexample :
    getFullAudioUrl "http://api" "/a.mp3" = "http://api/a.mp3" ∧
    (watchAudioUrl "http://api" "/a.mp3" (initAudioState 1)).src = "/a.mp3" ∧
    ("/a.mp3" : String) ≠ "http://api/a.mp3" := by
  refine ⟨by decide, by decide, by decide⟩

/-- C8 witness: the amended resolution facts at concrete URLs. -/
theorem c8_url_resolution_witness :
    (jsStartsWith "http://x/y.mp3" "http" = true ∧
      jsStartsWith "/y.mp3" "http" = false ∧
      (initAudioState 1).isPlaying = false ∧ ("/y.mp3" : String) ≠ "") ∧
    getFullAudioUrl "http://api" "http://x/y.mp3" = "http://x/y.mp3" ∧
    getFullAudioUrl "http://api" "/y.mp3" = "http://api" ++ "/y.mp3" ∧
    (togglePlayPause "http://api" "/y.mp3" true (initAudioState 1)).src =
      getFullAudioUrl "http://api" "/y.mp3" ∧
    (initAudio "/y.mp3" (initAudioState 1)).src = "/y.mp3" ∧
    (watchAudioUrl "http://api" "/y.mp3" (initAudioState 1)).src = "/y.mp3" := by
  exact ⟨⟨by decide, by decide, rfl, by decide⟩,
    c8_url_resolution.1 "http://api" "http://x/y.mp3" (by decide),
    c8_url_resolution.2.1 "http://api" "/y.mp3" (by decide),
    c8_url_resolution.2.2.1 "http://api" "/y.mp3" true (initAudioState 1) rfl (by decide),
    c8_url_resolution.2.2.2.1 "/y.mp3" (initAudioState 1),
    c8_url_resolution.2.2.2.2 "http://api" "/y.mp3" (initAudioState 1) (by decide)⟩

/-! ## Question normalization (`showQuestions` in `src/App.vue`)

`storyData.questions` entries arrive as structured objects, JSON-encoded
strings, or plain strings; `showQuestions` maps each entry to a
normalized question record.  `JSON.parse` is a platform primitive: it is
modelled as an arbitrary function `parse : String → Option Json`,
`none` standing for a thrown `SyntaxError`. -/

/-- A well-formed multiple-choice option (the TS `Choice` interface). -/
structure Choice where
  text : String
  isCorrect : Bool
deriving DecidableEq

/-- A normalized question as stored into `currentQuestions`: the prompt
string plus the choice list kept as raw JS values (the code does not
normalize choice elements). -/
structure QuestionN where
  question : String
  choices : List Json

/-- A runtime `storyData.questions` entry: a (non-null) JS object or a
string. -/
inductive QEntry where
  | objE (fields : List (String × Json))
  | strE (s : String)

/-- JS `String(q)` on an entry. -/
def QEntry.display : QEntry → String
  | .objE fields => Json.display (.obj fields)
  | .strE s => s

/-- The string arm of the normalization: if the trimmed string starts
with a brace, try `JSON.parse`; on success read `question`/`choices`
fields, on a parse error fall through to the plain-text question. -/
def normalizeFromString (parse : String → Option Json) (s : String) : QuestionN :=
  if jsStartsWith (jsTrim s) "\x7b" then
    match parse s with
    | some parsed =>
      { question := jsDisplayOrEmpty (parsed.get? "question")
        choices := jsArrayOrEmpty (parsed.get? "choices") }
    | none => { question := s, choices := [] }
  else { question := s, choices := [] }

/-- The per-entry mapping of `showQuestions`: an object carrying a
`question` key is used structurally; anything else is stringified and
handled by the string arm. -/
def normalizeEntry (parse : String → Option Json) (q : QEntry) : QuestionN :=
  match q with
  | .objE fields =>
    if (jsField fields "question").isSome then
      { question := jsDisplayOrEmpty (jsField fields "question")
        choices := jsArrayOrEmpty (jsField fields "choices") }
    else normalizeFromString parse (QEntry.display (.objE fields))
  | .strE s => normalizeFromString parse s

/-! ### A canonical JSON encoding of a question object

Used to state the round-trip claim: `JSON.stringify` on a
`{question, choices}` object (quotes and backslashes escaped). -/

/-- Escape one character for a JSON string literal. -/
def escChar (c : Char) : List Char :=
  if c = '"' then ['\\', '"'] else if c = '\\' then ['\\', '\\'] else [c]

/-- Escape a string for inclusion in a JSON string literal. -/
def jsonEscape (s : String) : List Char := (s.data.map escChar).flatten

/-- The `Json` value of a well-formed choice object. -/
def choiceJson (c : Choice) : Json :=
  .obj [("text", .str c.text), ("isCorrect", .bool c.isCorrect)]

/-- The `Json` value of a well-formed `{question, choices}` object. -/
def questionJson (q : String) (cs : List Choice) : Json :=
  .obj [("question", .str q), ("choices", .arr (cs.map choiceJson))]

/-- Encoded characters of one choice object. -/
def encodeChoiceChars (c : Choice) : List Char :=
  '\x7b' :: ("\"text\":\"".data ++ jsonEscape c.text ++ "\",\"isCorrect\":".data
    ++ (cond c.isCorrect "true" "false").data) ++ ['\x7d']

/-- Comma-separated encoded choices. -/
def encodeChoicesChars : List Choice → List Char
  | [] => []
  | [c] => encodeChoiceChars c
  | c :: d :: tl => encodeChoiceChars c ++ ',' :: encodeChoicesChars (d :: tl)

/-- The JSON text of a `{question, choices}` object. -/
def encodeQuestion (q : String) (cs : List Choice) : String :=
  String.mk ('\x7b' :: ("\"question\":\"".data ++ jsonEscape q ++ "\",\"choices\":[".data
    ++ encodeChoicesChars cs ++ (']' :: ['\x7d'])))

lemma dropWhile_append_last {p : Char → Bool} (l : List Char) (c : Char) (hc : p c = false) :
    ∃ l2, List.dropWhile p (l ++ [c]) = l2 ++ [c] := by
  induction l with
  | nil => exact ⟨[], by simp [List.dropWhile, hc]⟩
  | cons a tl ih =>
    by_cases ha : p a = true
    · simpa [List.dropWhile, ha] using ih
    · exact ⟨a :: tl, by simp [List.dropWhile, ha]⟩

lemma trim_starts_with_brace (rest : List Char) :
    jsStartsWith (jsTrim (String.mk ('\x7b' :: rest))) "\x7b" = true := by
  unfold jsTrim jsStartsWith
  have hws : jsWhitespaceChar '\x7b' = false := rfl
  have h1 : List.dropWhile jsWhitespaceChar ('\x7b' :: rest) = '\x7b' :: rest := by
    simp [List.dropWhile, hws]
  obtain ⟨l2, hl2⟩ := dropWhile_append_last (p := jsWhitespaceChar) rest.reverse '\x7b' hws
  show (("\x7b".data).isPrefixOf
    ((((('\x7b' :: rest).dropWhile jsWhitespaceChar).reverse).dropWhile jsWhitespaceChar).reverse)) = true
  rw [h1, List.reverse_cons, hl2, List.reverse_append]
  simp [List.isPrefixOf]

lemma jsDisplayOrEmpty_str (q : String) : jsDisplayOrEmpty (some (.str q)) = q := by
  by_cases h : q = "" <;> simp [jsDisplayOrEmpty, Json.truthy, Json.display, h]

/-- C9: a `QuestionLike` that is the JSON text of a `{question, choices}`
object normalizes (through `showQuestions`'s entry mapping) to the same
question record as the object passed directly, for any `JSON.parse`
behaviour that correctly inverts the encoding on this text. -/
theorem c9_roundtrip (parse : String → Option Json) (q : String) (cs : List Choice)
    (hp : parse (encodeQuestion q cs) = some (questionJson q cs)) :
    normalizeEntry parse (.strE (encodeQuestion q cs)) =
      normalizeEntry parse (.objE [("question", .str q), ("choices", .arr (cs.map choiceJson))]) := by
  have hb : jsStartsWith (jsTrim (encodeQuestion q cs)) "\x7b" = true :=
    trim_starts_with_brace _
  have hL : normalizeFromString parse (encodeQuestion q cs) =
      ⟨q, cs.map choiceJson⟩ := by
    unfold normalizeFromString
    simp only [hb, if_true]
    rw [hp]
    simp [questionJson, Json.get?, jsDisplayOrEmpty_str, jsArrayOrEmpty]
  have hR : normalizeEntry parse
      (.objE [("question", .str q), ("choices", .arr (cs.map choiceJson))]) =
      ⟨q, cs.map choiceJson⟩ := by
    unfold normalizeEntry
    simp [jsField, jsDisplayOrEmpty_str, jsArrayOrEmpty]
  calc normalizeEntry parse (.strE (encodeQuestion q cs))
      = normalizeFromString parse (encodeQuestion q cs) := rfl
    _ = ⟨q, cs.map choiceJson⟩ := hL
    _ = normalizeEntry parse
          (.objE [("question", .str q), ("choices", .arr (cs.map choiceJson))]) := hR.symm

/-- C9 witness data: a concrete question object and a parse function that
inverts its encoding. -/
def c9Question : String := "Welcher Sport wird beschrieben?"

/-- The concrete choice list of the C9 witness. -/
def c9Choices : List Choice := [⟨"Fussball", true⟩, ⟨"Tennis", false⟩]

/-- A concrete `JSON.parse` model for the C9 witness: parses exactly the
witness text. -/
def c9Parse : String → Option Json :=
  fun t => if t = encodeQuestion c9Question c9Choices
    then some (questionJson c9Question c9Choices) else none

/-- C9 witness: the round-trip at the concrete question. -/
theorem c9_roundtrip_witness :
    c9Parse (encodeQuestion c9Question c9Choices) = some (questionJson c9Question c9Choices) ∧
    normalizeEntry c9Parse (.strE (encodeQuestion c9Question c9Choices)) =
      normalizeEntry c9Parse
        (.objE [("question", .str c9Question), ("choices", .arr (c9Choices.map choiceJson))]) := by
  have hp : c9Parse (encodeQuestion c9Question c9Choices)
      = some (questionJson c9Question c9Choices) := by
    unfold c9Parse
    rw [if_pos rfl]
  exact ⟨hp, c9_roundtrip c9Parse c9Question c9Choices hp⟩

/-- C10: an entry that is a string that is not a parseable JSON object —
either it does not start with a brace after trimming, or `JSON.parse`
throws on it — normalizes to a plain-text question carrying the literal
entry text and an empty choice list; the mapping is total, so no
exception escapes and no error message is produced. -/
theorem c10_malformed_fallback (parse : String → Option Json) (s : String)
    (h : jsStartsWith (jsTrim s) "\x7b" = false ∨ parse s = none) :
    normalizeEntry parse (.strE s) = { question := s, choices := [] } := by
  unfold normalizeEntry normalizeFromString
  rcases h with h | h
  · simp [h]
  · by_cases hb : jsStartsWith (jsTrim s) "\x7b" = true <;> simp [hb, h]

/-- A parse model that throws on every string. -/
def parseNone : String → Option Json := fun _ => none

/-- C10 witness: a malformed plain string entry falls back to a
plain-text question. -/
theorem c10_malformed_fallback_witness :
    (jsStartsWith (jsTrim "Keine gueltige Frage") "\x7b" = false ∨
      parseNone "Keine gueltige Frage" = none) ∧
    normalizeEntry parseNone (.strE "Keine gueltige Frage") =
      { question := "Keine gueltige Frage", choices := [] } := by
  exact ⟨Or.inl (by decide),
    c10_malformed_fallback parseNone "Keine gueltige Frage" (Or.inl (by decide))⟩

/-! ## QuizController (`src/App.vue` and the guarded variant)

Two near-identical versions of the quiz flow exist in the repository:
`src/App.vue`, and a second copy (shipped inside the `AudioPlayer.vue`
file) that adds one-shot guards to `selectAnswerType` and
`showQuestions` and gates the completion message on multiple-choice
mode.  The differences are captured by a `Variant` record so the shared
code is modelled once. -/

mutual

/-- Structural equality of JS values (used to model `Array.indexOf`'s
lookup of a message object). -/
def Json.beq : Json → Json → Bool
  | .null, .null => true
  | .bool a, .bool b => a == b
  | .num a, .num b => a == b
  | .str a, .str b => a == b
  | .arr a, .arr b => Json.beqList a b
  | .obj a, .obj b => Json.beqFields a b
  | _, _ => false

/-- Elementwise `Json.beq`. -/
def Json.beqList : List Json → List Json → Bool
  | [], [] => true
  | a :: t1, b :: t2 => Json.beq a b && Json.beqList t1 t2
  | _, _ => false

/-- Fieldwise `Json.beq`. -/
def Json.beqFields : List (String × Json) → List (String × Json) → Bool
  | [], [] => true
  | (k1, v1) :: t1, (k2, v2) :: t2 => k1 == k2 && Json.beq v1 v2 && Json.beqFields t1 t2
  | _, _ => false

end

instance : BEq Json := ⟨Json.beq⟩

/-- The `answerType` union `"text" | "multiple"`. -/
inductive AType where
  | text
  | multiple
deriving DecidableEq

/-- `StoryData` as returned by `generate-story`; `questions` entries are
kept in their runtime shape. -/
structure StoryData where
  requestId : String
  story : String
  questions : List QEntry
  audioUrl : String

/-- Message identifiers: the welcome message's literal `1`, the reserved
`"loading"` sentinel (removal keys on it), and the `Date.now()`-derived
ids (not modelled individually — nothing reads them). -/
inductive MsgId where
  | welcomeId
  | loadingId
  | genId
deriving DecidableEq

/-- The optional `type` tag of a message. -/
inductive MType where
  | textT
  | story
  | question
  | evaluation
  | feedback
  | error
  | answerTypeSelection
  | restart
deriving DecidableEq

/-- The kind-specific `data` payload of a message. -/
inductive MData where
  | noData
  | answerTypePrompt
  | storyD (sd : StoryData)
  | questionD (questionIndex : Int) (choices : List Json)

/-- One chat entry (`timestamp` dropped: display only). -/
structure Message where
  id : MsgId
  text : String
  sent : Bool
  mtype : Option MType
  mdata : MData

/-- Build a chat entry. -/
def mkMsg (id : MsgId) (text : String) (sent : Bool) (mtype : Option MType) (mdata : MData) : Message :=
  ⟨id, text, sent, mtype, mdata⟩

/-- The per-session quiz state of the controller (newMessage, the input
buffer, is modelled by the submit action's parameter). -/
structure QState where
  messages : List Message
  selectedTopic : String
  answerType : AType
  showAnswerTypeSelection : Bool
  answerTypeSelected : Bool
  continueButtonClicked : Bool
  currentQuestionIndex : Int
  currentQuestions : List QuestionN
  selectedChoices : List (Nat × Nat)
  answeredQuestions : List (Nat × Bool)
  waitingForAnswer : Bool
  questionsStarted : Bool
  currentStory : Option StoryData
  requestId : String
  loading : Bool

/-- The divergences between the two copies of the quiz flow. -/
structure Variant where
  guardAnswerType : Bool
  guardContinue : Bool
  completionOnlyMC : Bool

/-- `src/App.vue`: only `selectTopic` is guarded; the completion message
is unconditional. -/
def appVue : Variant := ⟨false, false, false⟩

/-- The guarded copy: `selectAnswerType` and `showQuestions` carry
one-shot guards; the completion message only appears in multiple-choice
mode. -/
def guardedVariant : Variant := ⟨true, true, true⟩

/-- The fixed topic list. -/
def topicsList : List String :=
  ["Geschäft", "Reisen", "Sport", "Essen", "Familie", "Arbeit", "Hobbys",
   "Einkaufen", "Gesundheit", "Wetter"]

/-- The welcome text of the initial message. -/
def welcomeText : String :=
  "Hi, ich bin HörMalZu-Bot und ich helfe dir dein Hörverständnis zu verbessern, indem ich dir eine kleine Übungsaufgabe erstelle. Wähle ein Thema aus der folgenden Liste aus."

/-- The initial session state. -/
def initQState : QState :=
  { messages := [⟨.welcomeId, welcomeText, false, none, .noData⟩]
    selectedTopic := ""
    answerType := .text
    showAnswerTypeSelection := false
    answerTypeSelected := false
    continueButtonClicked := false
    currentQuestionIndex := -1
    currentQuestions := []
    selectedChoices := []
    answeredQuestions := []
    waitingForAnswer := false
    questionsStarted := false
    currentStory := none
    requestId := ""
    loading := false }

/-! ### Assoc-list model of the JS record objects

`selectedChoices` and `answeredQuestions` are plain objects with integer
keys.  JS iterates integer keys in ascending order, so the assoc lists
are kept key-sorted and `Object.values` is the second projection.  The
code never writes `null` into `selectedChoices`, so values are plain
numbers and an absent key models `undefined`. -/

/-- Insert or replace a key, keeping keys sorted ascending. -/
def setKey (k : Nat) (v : α) : List (Nat × α) → List (Nat × α)
  | [] => [(k, v)]
  | (k1, v1) :: tl =>
    if k < k1 then (k, v) :: (k1, v1) :: tl
    else if k = k1 then (k, v) :: tl
    else (k1, v1) :: setKey k v tl

/-- Key lookup (`undefined` is `none`). -/
def getKey (k : Nat) (l : List (Nat × α)) : Option α :=
  (l.find? (fun kv => kv.1 == k)).map (·.2)

/-- Lookup with an `Int` index (negative keys are never present). -/
def getKeyInt (i : Int) (l : List (Nat × α)) : Option α :=
  if i < 0 then none else getKey i.toNat l

/-- `Object.values` on a key-sorted record. -/
def objValues (l : List (Nat × α)) : List α := l.map (·.2)

/-- Array indexing with a JS number (`undefined` outside the range). -/
def getAtInt (l : List α) (i : Int) : Option α :=
  if i < 0 then none else l[i.toNat]?

/-- `answeredQuestions[i]` truthiness (absent key is falsy). -/
def answeredAt (s : QState) (i : Int) : Bool :=
  match getKeyInt i s.answeredQuestions with
  | some b => b
  | none => false

/-- The rendered text of a raw JS value stored into a message's `text`
slot (an `undefined` property renders as `undefined`). -/
def jsStringOfProp (x : Option Json) : String :=
  match x with
  | none => "undefined"
  | some j => j.display

/-! ### Message texts (the fixed German strings of the source) -/

/-- The answer-type prompt. -/
def answerTypePromptText : String :=
  "Möchtest du Multiple-Choice-Fragen oder Freitext-Antworten?"

/-- The indeterminate-progress text shown while the story is generated. -/
def loadingMsgText (topic : String) (ty : AType) : String :=
  "Gute Wahl! Ich erstelle eine Übungsaufgabe zum Thema \"" ++ topic ++ "\" mit "
    ++ (match ty with
        | .multiple => "Multiple-Choice-Fragen"
        | .text => "Freitext-Antworten")
    ++ ". Das kann einen Moment dauern..."

/-- The chat label of an answer-type selection. -/
def atypeLabel : AType → String
  | .multiple => "Multiple Choice"
  | .text => "Freitext"

/-- The story success message text. -/
def storySuccessText (topic : String) : String :=
  "Ich habe eine Geschichte zum Thema \"" ++ topic ++ "\" erstellt. Höre dir die Geschichte an und beantworte dann die Fragen."

/-- The story generation error text. -/
def genErrorText : String :=
  "Entschuldigung, es gab ein Problem beim Erstellen der Geschichte. Bitte versuche es später noch einmal."

/-- The completion text with the local correct count. -/
def completionCountText (c total : Nat) : String :=
  "Glückwunsch! Du hast alle Fragen beantwortet. Du hast " ++ toString c ++ " von "
    ++ toString total ++ " Fragen richtig beantwortet."

/-- The pre-evaluation acknowledgement text. -/
def thanksText : String :=
  "Vielen Dank für deine Antworten! Ich werde deine Antworten jetzt auswerten. Das kann einen Moment dauern..."

/-- The evaluation summary text of the multiple-choice branch. -/
def evaluationText (score : Int) (c total : Nat) : String :=
  "Auswertung: " ++ toString score ++ "% korrekt (" ++ toString c ++ " von "
    ++ toString total ++ " Fragen richtig beantwortet)"

/-- The per-question feedback text of the multiple-choice branch. -/
def feedbackText (q a c : String) : String :=
  "Frage: " ++ q ++ "<br>Deine Antwort: " ++ a ++ "<br>Richtige Antwort: " ++ c

/-- The evaluation error text. -/
def evalErrorText : String :=
  "Entschuldigung, es gab ein Problem bei der Auswertung. Bitte versuche es später noch einmal."

/-- The restart prompt text. -/
def restartPromptText : String :=
  "Möchtest du es noch einmal versuchen?"

/-- The restart prompt message. -/
def restartMsg : Message := ⟨.genId, restartPromptText, false, some .restart, .noData⟩

/-! ### Transitions -/

/-- `showCurrentQuestion`: push the current question (no-op when the
index is out of range).  `currentQuestions` always holds normalized
records by this point, so the structured branch of its runtime shape
sniffing applies and the text is the prompt itself
(`String(q.question || "")` is the identity on the stored string). -/
def showCurrentQuestion (s : QState) : QState :=
  match getAtInt s.currentQuestions s.currentQuestionIndex with
  | none => s
  | some q =>
    let s1 := { s with messages := s.messages ++
      [mkMsg .genId q.question false (some .question)
        (.questionD s.currentQuestionIndex q.choices)] }
    { s1 with waitingForAnswer := true }

/-- `selectTopic`: write-once via the `if (selectedTopic.value) return`
truthiness guard; pushes the sent topic and the answer-type prompt. -/
def selectTopicFn (t : String) (s : QState) : QState :=
  if s.selectedTopic ≠ "" then s
  else
    let s1 := { s with
      selectedTopic := t
      messages := s.messages ++ [mkMsg .genId t true none .noData] }
    { s1 with
      showAnswerTypeSelection := true
      messages := s1.messages ++
        [mkMsg .genId answerTypePromptText false (some .answerTypeSelection) .answerTypePrompt] }

/-- `selectAnswerType`: the guarded copy returns early once an answer
type is chosen.  `r` is the `generate-story` outcome (`none` for a
rejected fetch, a non-ok status, or an unparsable body): on success the
loading message is removed and the story message pushed; on failure the
loading message is removed and the error message pushed. -/
def selectAnswerTypeFn (v : Variant) (ty : AType) (r : Option StoryData) (s : QState) : QState :=
  if v.guardAnswerType && s.answerTypeSelected then s
  else
    let s0 := if v.guardAnswerType then { s with answerTypeSelected := true } else s
    let s1 := { s0 with
      answerType := ty
      showAnswerTypeSelection := false }
    let s2 := { s1 with messages := s1.messages ++ [mkMsg .genId (atypeLabel ty) true none .noData] }
    let s3 := { s2 with messages := s2.messages ++
      [mkMsg .loadingId (loadingMsgText s.selectedTopic ty) false none .noData] }
    match r with
    | some sd =>
      let s4 := { s3 with currentStory := some sd }
      let s5 := { s4 with messages := s4.messages.filter (fun m => m.id != MsgId.loadingId) }
      { s5 with messages := s5.messages ++
        [mkMsg .genId (storySuccessText s.selectedTopic) false (some .story) (.storyD sd)] }
    | none =>
      let s5 := { s3 with messages := s3.messages.filter (fun m => m.id != MsgId.loadingId) }
      { s5 with messages := s5.messages ++ [mkMsg .genId genErrorText false none .noData] }

/-- `showQuestions`: the guarded copy returns early after the first
click; normalizes the story's question entries, resets the question
cursor to `0` and shows the first question.  (`requestId` is set to a
`req_`-prefixed timestamp; the timestamp is dropped.) -/
def showQuestionsFn (parse : String → Option Json) (v : Variant) (sd : StoryData) (s : QState) : QState :=
  if v.guardContinue && s.continueButtonClicked then s
  else
    let s0 := if v.guardContinue then { s with continueButtonClicked := true } else s
    let s1 := { s0 with
      currentStory := some sd
      currentQuestions := sd.questions.map (normalizeEntry parse) }
    let s2 := { s1 with
      requestId := "req_"
      currentQuestionIndex := 0
      waitingForAnswer := true
      questionsStarted := true }
    showCurrentQuestion s2

/-- The local correct count computed at completion:
`Object.values(selectedChoices).reduce(...)` — note the reduce `index`
is the position in the values array, paired with
`currentQuestions[index].choices[choiceIndex]?.isCorrect` truthiness.
(`choiceIndex === null` never holds, values are plain numbers; an
out-of-range `index` cannot arise because choice keys are indices of
previously displayed questions, and is modelled as contributing
nothing.) -/
def correctCountJS (qs : List QuestionN) (sel : List (Nat × Nat)) : Nat :=
  ((objValues sel).enum).foldl (fun acc p =>
    match qs[p.1]? with
    | none => acc
    | some q => acc + (if jsTruthy ((q.choices[p.2]?).bind (fun c => c.get? "isCorrect")) then 1 else 0)) 0

/-- The completion message appended at the end of the question loop: the
guarded copy emits it only in multiple-choice mode, `src/App.vue`
unconditionally. -/
def completionMsgList (v : Variant) (ty : AType) (c total : Nat) : List Message :=
  if v.completionOnlyMC then
    (if ty = AType.multiple then
      [mkMsg .genId (completionCountText c total) false none .noData]
    else [])
  else [mkMsg .genId (completionCountText c total) false none .noData]

/-- The tail of `goToNextQuestion`: `currentQuestionIndex++`, then either
show the next question or push the completion message (see
`completionMsgList`) and end the question loop. -/
def advanceQuestion (v : Variant) (s : QState) : QState :=
  let s1 := { s with currentQuestionIndex := s.currentQuestionIndex + 1 }
  if s1.currentQuestionIndex < (s1.currentQuestions.length : Int) then
    let s2 := showCurrentQuestion s1
    { s2 with waitingForAnswer := true }
  else
    let c := correctCountJS s1.currentQuestions s1.selectedChoices
    { s1 with
      messages := s1.messages ++ completionMsgList v s1.answerType c s1.currentQuestions.length
      questionsStarted := false }

/-- `goToNextQuestion`.  In the multiple-choice path
(`isTextAnswer = false`) the `selectedChoices[currentIndex] !== null`
test always passes (values are never `null`; an absent key is
`undefined`).  A `TypeError` mid-handler aborts it, keeping the
mutations already made: an out-of-range `currentIndex` throws at
`question.choices` before any mutation, and an absent or out-of-range
choice index throws at `selectedChoice.text` after `answeredQuestions`
was written. -/
def goToNextQuestion (v : Variant) (isTextAnswer : Bool) (s : QState) : QState :=
  if isTextAnswer then advanceQuestion v s
  else
    match getAtInt s.currentQuestions s.currentQuestionIndex with
    | none => s
    | some q =>
      match getKeyInt s.currentQuestionIndex s.selectedChoices with
      | none =>
        { s with answeredQuestions := setKey s.currentQuestionIndex.toNat true s.answeredQuestions }
      | some ci =>
        match q.choices[ci]? with
        | none =>
          { s with answeredQuestions := setKey s.currentQuestionIndex.toNat true s.answeredQuestions }
        | some choice =>
          let s1 :=
            { s with answeredQuestions := setKey s.currentQuestionIndex.toNat true s.answeredQuestions }
          let s2 := { s1 with messages := s1.messages ++
            [mkMsg .genId (jsStringOfProp (choice.get? "text")) true none .noData] }
          advanceQuestion v s2

/-! ### EvaluationDispatcher (`evaluateAnswers`) -/

/-- One entry of the remote grader's `evaluations` array.  (A response
whose `evaluations` is not an array renders nothing, which coincides
with the empty list.) -/
structure EvalItem where
  question : String
  answer : String
  isCorrect : Bool
  correction : String
  explanation : String

/-- The parsed body of a successful `evaluate-answers` response. -/
structure EvalResult where
  overallScore : Int
  feedback : String
  evaluations : List EvalItem

/-- One element of `questionsWithAnswers` in the multiple-choice branch:
the prompt plus the raw `.text` / `.isCorrect` values of the selected
choice. -/
structure QAItem where
  question : String
  answerVal : Option Json
  isCorrectVal : Option Json

/-- The mapping of one question in the multiple-choice branch.
`selectedChoices[index] !== null` always holds (values are never
`null`), so an absent key reaches `q.choices[undefined].text` and throws
(`none`); an out-of-range recorded index throws the same way. -/
def evalMCItem (sel : List (Nat × Nat)) (i : Nat) (q : QuestionN) : Option QAItem :=
  match getKey i sel with
  | none => none
  | some ci =>
    match q.choices[ci]? with
    | none => none
    | some c => some ⟨q.question, c.get? "text", c.get? "isCorrect"⟩

/-- `currentQuestions.map(...)` of the multiple-choice branch: the first
throwing entry aborts the whole evaluation. -/
def evalMCItems (sel : List (Nat × Nat)) : Nat → List QuestionN → Option (List QAItem)
  | _, [] => some []
  | i, q :: tl =>
    match evalMCItem sel i q with
    | none => none
    | some it => (evalMCItems sel (i + 1) tl).map (it :: ·)

/-- `Math.round` (the arguments arising here are nonnegative, where
`Math.round` and `round` agree). -/
def jsRound (x : Rat) : Int := round x

/-- `Math.round((correctAnswers / totalQuestions) * 100)`.  (For an
empty question list JS computes `NaN`; the controller never evaluates an
empty session.) -/
def evalScoreOf (items : List QAItem) : Int :=
  jsRound (((items.filter (fun it => jsTruthy it.isCorrectVal)).length : Rat)
    / (items.length : Rat) * 100)

/-- One feedback message of the multiple-choice branch: produced for an
incorrect answer when both the selected and the correct choice are
truthy. -/
def mcFeedbackMsg (qs : List QuestionN) (sel : List (Nat × Nat)) (p : Nat × QAItem) :
    Option Message :=
  match qs[p.1]? with
  | none => none
  | some q =>
    let selChoice := (getKey p.1 sel).bind (fun ci => q.choices[ci]?)
    let correctChoice := q.choices.find? (fun c => jsTruthy (c.get? "isCorrect"))
    if !jsTruthy p.2.isCorrectVal && jsTruthy selChoice && jsTruthy correctChoice then
      some (mkMsg .genId
        (feedbackText q.question
          (jsStringOfProp (selChoice.bind (fun c => c.get? "text")))
          (jsStringOfProp (correctChoice.bind (fun c => c.get? "text"))))
        false none .noData)
    else none

/-- The messages pushed inside the `try` of the multiple-choice branch
(`none` when the answer mapping throws): the evaluation summary, the
per-question feedback for incorrect answers, and the completion note. -/
def mcEvalMsgs (qs : List QuestionN) (sel : List (Nat × Nat)) : Option (List Message) :=
  match evalMCItems sel 0 qs with
  | none => none
  | some items =>
    let correctAnswers := (items.filter (fun it => jsTruthy it.isCorrectVal)).length
    let totalQuestions := items.length
    let score := evalScoreOf items
    some ([mkMsg .genId (evaluationText score correctAnswers totalQuestions) false
            (some .evaluation) .noData]
      ++ (items.enum.filterMap (mcFeedbackMsg qs sel))
      ++ [mkMsg .genId "Glückwunsch! Du hast alle Fragen beantwortet." false none .noData])

/-- `messages.findIndex(m => m.text === t)`. -/
def jsFindIndexText (msgs : List Message) (t : String) : Int :=
  match msgs.findIdx? (fun m => m.text == t) with
  | some i => (i : Int)
  | none => -1

deriving instance BEq for QEntry

deriving instance BEq for StoryData

deriving instance BEq for MData

deriving instance BEq for Message

/-- `messages.indexOf(m)` (object identity modelled as value equality;
real messages are distinguished by their timestamped ids). -/
def jsIndexOfMsg (msgs : List Message) (m : Message) : Int :=
  match msgs.findIdx? (fun m2 => m2 == m) with
  | some i => (i : Int)
  | none => -1

/-- The free-text branch's reconstruction of one user answer: the first
sent nonempty message positioned after the first message whose text
equals the question prompt. -/
def userAnswerFor (msgs : List Message) (q : QuestionN) : String :=
  match (msgs.filter (·.sent)).find? (fun m =>
      (m.text != "") && (jsTrim m.text != "") &&
      decide (jsFindIndexText msgs q.question < jsIndexOfMsg msgs m)) with
  | some m => m.text
  | none => ""

/-- The request body of the free-text branch (question/answer pairs);
the oracle `r` stands for the backend's response to it. -/
def freeTextRequest (s : QState) : List (String × String) :=
  s.currentQuestions.map (fun q => (q.question, userAnswerFor s.messages q))

/-- The overall free-text evaluation message text. -/
def freeTextEvalText (res : EvalResult) : String :=
  "Auswertung: " ++ toString res.overallScore ++ "% korrekt\n" ++ res.feedback

/-- One per-question free-text feedback text (the `<br>`-joined block). -/
def evalItemText (e : EvalItem) : String :=
  "Frage: " ++ e.question ++ "<br>Deine Antwort: " ++ e.answer ++ "<br><br>"
    ++ (if e.isCorrect then "✅ Richtig!" else "❌ Falsch. " ++ e.correction)
    ++ "<br><br>" ++ e.explanation

/-- `evaluateAnswers`: pushes the acknowledgement, then either the local
multiple-choice evaluation or the remote free-text evaluation; a thrown
`TypeError` (multiple-choice) or a failed call (free-text) lands in the
`catch` with a single error message and no restart prompt; `finally`
clears `loading` and `questionsStarted`. -/
def evaluateAnswersFn (v : Variant) (r : Option EvalResult) (s : QState) : QState :=
  let s1 := { s with messages := s.messages ++ [mkMsg .genId thanksText false none .noData] }
  let s2 := { s1 with loading := true }
  let s3 :=
    if s2.answerType = AType.multiple then
      match mcEvalMsgs s2.currentQuestions s2.selectedChoices with
      | some msgs => { s2 with messages := s2.messages ++ msgs ++ [restartMsg] }
      | none => { s2 with messages := s2.messages ++ [mkMsg .genId evalErrorText false none .noData] }
    else
      match r with
      | none => { s2 with messages := s2.messages ++ [mkMsg .genId evalErrorText false none .noData] }
      | some res =>
        let s2a :=
          if res.feedback != "" then
            { s2 with messages := s2.messages
              ++ [mkMsg .genId (freeTextEvalText res) false none .noData]
              ++ (res.evaluations.map (fun e => mkMsg .genId (evalItemText e) false none .noData)) }
          else s2
        { s2a with messages := s2a.messages ++ [restartMsg] }
  { s3 with loading := false, questionsStarted := false }

/-- The state mutations `submitTextAnswer` performs before advancing:
clear `waitingForAnswer`, mark the current index answered, record the
`0` placeholder choice, push the sent answer message. -/
def submitRecord (answer : String) (s : QState) : QState :=
  let s1 := { s with waitingForAnswer := false }
  let s2 :=
    { s1 with answeredQuestions := setKey s1.currentQuestionIndex.toNat true s1.answeredQuestions }
  let s3 :=
    { s2 with selectedChoices := setKey s2.currentQuestionIndex.toNat 0 s2.selectedChoices }
  { s3 with messages := s3.messages ++ [mkMsg .genId answer true none .noData] }

/-- The tail of `submitTextAnswer`: evaluate once the cursor has passed
the last question. -/
def submitFinish (v : Variant) (r : Option EvalResult) (s5 : QState) : QState :=
  if (s5.currentQuestions.length : Int) ≤ s5.currentQuestionIndex then
    evaluateAnswersFn v r s5
  else s5

/-- `submitTextAnswer` with the already-trimmed answer text
(`answerText || newMessage.value.trim()`); empty answers are rejected.
The input container is only rendered while a question is pending, so
`currentQuestionIndex` is nonnegative whenever this runs. -/
def submitTextAnswerFn (v : Variant) (answer : String) (r : Option EvalResult) (s : QState) : QState :=
  if answer = "" then s
  else submitFinish v r (goToNextQuestion v true (submitRecord answer s))

/-! ### The user-facing step relation

Actions are the UI events a user can raise, with the asynchronous
backend responses attached as oracles.  Disabled or absent controls
produce no event, which the step function models by leaving the state
unchanged.  (`sendMessage`'s multiple-choice arm is unreachable: the
input container is rendered only in free-text mode.) -/

/-- A user action (message-indexed where the control lives inside a
specific chat entry). -/
inductive UAction where
  | selectTopic (t : String)
  | selectAnswerType (ty : AType) (r : Option StoryData)
  | clickContinue (k : Nat)
  | selectChoice (k : Nat) (ci : Nat)
  | clickNext (k : Nat)
  | submitText (a : String) (r : Option EvalResult)
  | restart

/-- The transition for one user action. -/
def step (parse : String → Option Json) (v : Variant) (a : UAction) (s : QState) : QState :=
  match a with
  | .selectTopic t =>
    -- topic buttons under the welcome message; disabled once a topic is set
    if topicsList.contains t && s.selectedTopic == "" then selectTopicFn t s else s
  | .selectAnswerType ty r =>
    -- answer-type buttons live in the answer-type prompt message; the
    -- guarded copy disables them after the first selection
    if (s.messages.any (fun m => m.mtype == some MType.answerTypeSelection))
        && !(v.guardAnswerType && s.answerTypeSelected) then
      selectAnswerTypeFn v ty r s
    else s
  | .clickContinue k =>
    -- the continue button of the story message at position k (the App.vue
    -- copy renders it without a disabled attribute)
    match s.messages[k]? with
    | some m =>
      match m.mtype, m.mdata with
      | some MType.story, .storyD sd =>
        if v.guardContinue && s.continueButtonClicked then s
        else showQuestionsFn parse v sd s
      | _, _ => s
    | none => s
  | .selectChoice k ci =>
    -- a choice radio of the question message at position k; disabled once
    -- that question is answered; the index is always nonnegative at push
    match s.messages[k]? with
    | some m =>
      match m.mtype, m.mdata with
      | some MType.question, .questionD qi choices =>
        if ci < choices.length && !answeredAt s qi then
          { s with selectedChoices := setKey qi.toNat ci s.selectedChoices }
        else s
      | _, _ => s
    | none => s
  | .clickNext k =>
    -- the next-question button of the question message at position k,
    -- rendered in multiple-choice mode only; enabled unless that question
    -- is answered (`selectedChoices[...] === null` never holds)
    match s.messages[k]? with
    | some m =>
      match m.mtype, m.mdata with
      | some MType.question, .questionD qi _ =>
        if s.answerType = AType.multiple && !answeredAt s qi then
          goToNextQuestion v false s
        else s
      | _, _ => s
    | none => s
  | .submitText a r =>
    -- the send control: rendered while questionsStarted, free-text mode
    -- and awaiting an answer; the textarea is disabled while loading
    if s.questionsStarted && s.answerType = AType.text && s.waitingForAnswer
        && !s.loading && jsTrim a != "" then
      submitTextAnswerFn v (jsTrim a) r s
    else s
  | .restart =>
    -- the restart button of a restart message; window.location.reload()
    -- recreates the initial session
    if s.messages.any (fun m => m.mtype == some MType.restart) then initQState else s

/-- Run a list of user actions from a state. -/
def runActs (parse : String → Option Json) (v : Variant) (acts : List UAction) (s : QState) : QState :=
  acts.foldl (fun s2 a => step parse v a s2) s

/-! ### Claim C1 (guard idempotence) -/

lemma showCurrentQuestion_cbc (s : QState) :
    (showCurrentQuestion s).continueButtonClicked = s.continueButtonClicked := by
  unfold showCurrentQuestion
  rcases h : getAtInt s.currentQuestions s.currentQuestionIndex with _ | q <;> simp [h]

lemma selectTopicFn_noop (t : String) (s : QState) (h : s.selectedTopic ≠ "") :
    selectTopicFn t s = s := by
  unfold selectTopicFn
  simp [h]

lemma selectTopicFn_topic (t : String) (s : QState) (h : s.selectedTopic = "") :
    (selectTopicFn t s).selectedTopic = t := by
  unfold selectTopicFn
  simp [h]

lemma selectAnswerTypeFn_noop (v : Variant) (ty : AType) (r : Option StoryData) (s : QState)
    (hg : v.guardAnswerType = true) (h : s.answerTypeSelected = true) :
    selectAnswerTypeFn v ty r s = s := by
  unfold selectAnswerTypeFn
  simp [hg, h]

lemma selectAnswerTypeFn_guard_set (ty : AType) (r : Option StoryData) (s : QState) :
    (selectAnswerTypeFn guardedVariant ty r s).answerTypeSelected = true := by
  unfold selectAnswerTypeFn
  by_cases h : s.answerTypeSelected
  · simp [guardedVariant, h]
  · rcases r with _ | sd <;> simp [guardedVariant, h]

lemma showQuestionsFn_noop (parse : String → Option Json) (v : Variant) (sd : StoryData)
    (s : QState) (hg : v.guardContinue = true) (h : s.continueButtonClicked = true) :
    showQuestionsFn parse v sd s = s := by
  unfold showQuestionsFn
  simp [hg, h]

lemma showQuestionsFn_guard_set (parse : String → Option Json) (sd : StoryData) (s : QState) :
    (showQuestionsFn parse guardedVariant sd s).continueButtonClicked = true := by
  unfold showQuestionsFn
  by_cases h : s.continueButtonClicked
  · simp [guardedVariant, h]
  · simp [guardedVariant, h, showCurrentQuestion_cbc]

/-- C1 (amended): `selectTopic` is idempotent after a first successful
call in both copies of the flow (its truthiness guard), and in the
guarded copy `selectAnswerType` and `showQuestions` are no-ops on any
second invocation, leaving the message log and all quiz state unchanged.
(In `src/App.vue` itself the latter two actions are unguarded; see the
counterexample.) -/
theorem c1_guard_idempotence :
    (∀ (s : QState) (t t2 : String), t ≠ "" →
      selectTopicFn t2 (selectTopicFn t s) = selectTopicFn t s) ∧
    (∀ (s : QState) (ty ty2 : AType) (r r2 : Option StoryData),
      selectAnswerTypeFn guardedVariant ty2 r2 (selectAnswerTypeFn guardedVariant ty r s) =
        selectAnswerTypeFn guardedVariant ty r s) ∧
    (∀ (parse : String → Option Json) (s : QState) (sd sd2 : StoryData),
      showQuestionsFn parse guardedVariant sd2 (showQuestionsFn parse guardedVariant sd s) =
        showQuestionsFn parse guardedVariant sd s) := by
  refine ⟨fun s t t2 ht => ?_, fun s ty ty2 r r2 => ?_, fun parse s sd sd2 => ?_⟩
  · by_cases h : s.selectedTopic = ""
    · exact selectTopicFn_noop t2 _ (by rw [selectTopicFn_topic t s h]; exact ht)
    · rw [selectTopicFn_noop t s h, selectTopicFn_noop t2 s h]
  · exact selectAnswerTypeFn_noop guardedVariant ty2 r2 _ rfl
      (selectAnswerTypeFn_guard_set ty r s)
  · exact showQuestionsFn_noop parse guardedVariant sd2 _ rfl
      (showQuestionsFn_guard_set parse sd s)

/-- The concrete story used by the counterexamples and scenario traces:
topic "Sport", two questions with one correct choice each. -/
def sdSport : StoryData :=
  { requestId := "r1"
    story := "Eine kurze Geschichte über Sport."
    questions :=
      [.objE [("question", .str "Frage eins?"),
              ("choices", .arr [choiceJson ⟨"Richtig A", true⟩, choiceJson ⟨"Falsch B", false⟩])],
       .objE [("question", .str "Frage zwei?"),
              ("choices", .arr [choiceJson ⟨"Richtig C", true⟩, choiceJson ⟨"Falsch D", false⟩])]]
    audioUrl := "/audio/sport.mp3" }

/-- C1 counterexample: in `src/App.vue`, `selectAnswerType` carries no
guard — invoking it a second time after a successful first call appends
further messages to the log. -/
theorem c1_counterexample :
    (selectAnswerTypeFn appVue AType.multiple (some sdSport)
        (selectAnswerTypeFn appVue AType.multiple (some sdSport)
          (selectTopicFn "Sport" initQState))).messages.length ≠
      (selectAnswerTypeFn appVue AType.multiple (some sdSport)
        (selectTopicFn "Sport" initQState)).messages.length := by
  decide

/-- C1 witness: the amended idempotence at a concrete session. -/
theorem c1_guard_idempotence_witness :
    (("Sport" : String) ≠ "") ∧
    selectTopicFn "Reisen" (selectTopicFn "Sport" initQState) = selectTopicFn "Sport" initQState ∧
    selectAnswerTypeFn guardedVariant AType.text none
        (selectAnswerTypeFn guardedVariant AType.multiple (some sdSport) initQState) =
      selectAnswerTypeFn guardedVariant AType.multiple (some sdSport) initQState ∧
    showQuestionsFn parseNone guardedVariant sdSport
        (showQuestionsFn parseNone guardedVariant sdSport initQState) =
      showQuestionsFn parseNone guardedVariant sdSport initQState := by
  exact ⟨by decide, c1_guard_idempotence.1 initQState "Sport" "Reisen" (by decide),
    c1_guard_idempotence.2.1 initQState AType.multiple AType.text (some sdSport) none,
    c1_guard_idempotence.2.2 parseNone initQState sdSport sdSport⟩

/-! ### Claim C4 (the Sport scenario) -/

/-- The C4 scenario as user actions: topic "Sport", multiple-choice,
continue to the questions, answer question 1 incorrectly (choice 1) and
question 2 correctly (choice 0) through the next-question button — the
only multiple-choice path the UI offers. -/
def c4Trace : List UAction :=
  [.selectTopic "Sport",
   .selectAnswerType .multiple (some sdSport),
   .clickContinue 4,
   .selectChoice 5 1,
   .clickNext 5,
   .selectChoice 7 0,
   .clickNext 7]

/-- The session state after the C4 scenario. -/
def c4Final : QState := runActs parseNone appVue c4Trace initQState

/-- C4 counterexample: the scenario's final log contains no evaluation
message at all — in particular none with the claimed
`Auswertung: 50% korrekt (1 von 2 …)` text — because the next-question
button only calls `goToNextQuestion` and `evaluateAnswers` is never
invoked on the multiple-choice path. -/
theorem c4_counterexample :
    (c4Final.messages.all (fun m => m.mtype != some MType.evaluation)) = true ∧
    (c4Final.messages.all (fun m => m.text != evaluationText 50 1 2)) = true := by
  refine ⟨by decide, by decide⟩

/-- C4 (amended): the scenario's final appended message is the untyped
completion message reporting the count `1 von 2` (without a percentage):
`goToNextQuestion`'s completion branch reports the local correct count,
and no `50%` score message is produced. -/
theorem c4_completion_message :
    (c4Final.messages.getLast?).map (fun m => m.text) = some (completionCountText 1 2) ∧
    completionCountText 1 2 =
      "Glückwunsch! Du hast alle Fragen beantwortet. Du hast 1 von 2 Fragen richtig beantwortet." ∧
    (c4Final.messages.getLast?).map (fun m => m.mtype) = some none := by
  refine ⟨by decide, by decide, by decide⟩

/-! ### Claim C2 (multiple-choice score) -/

/-- Whether the code counts position `i` with question `q` as correct:
the recorded choice's raw `isCorrect` value is truthy. -/
def mcHitAt (sel : List (Nat × Nat)) (i : Nat) (q : QuestionN) : Bool :=
  match getKey i sel with
  | none => false
  | some ci =>
    match q.choices[ci]? with
    | none => false
    | some c => jsTruthy (c.get? "isCorrect")

/-- The claim's notion of a correct position: the recorded choice index
refers to a choice whose `isCorrect` is the boolean `true`. -/
def specHitAt (sel : List (Nat × Nat)) (i : Nat) (q : QuestionN) : Bool :=
  match getKey i sel with
  | none => false
  | some ci =>
    match q.choices[ci]? with
    | none => false
    | some c =>
      match c.get? "isCorrect" with
      | some (.bool true) => true
      | _ => false

/-- The claim's correct count over a question list. -/
def specCorrectCount (qs : List QuestionN) (sel : List (Nat × Nat)) : Nat :=
  ((qs.enumFrom 0).filter (fun p => specHitAt sel p.1 p.2)).length

lemma evalMCItems_sound (sel : List (Nat × Nat)) (qs : List QuestionN) : ∀ (n : Nat),
    (∀ j (h : j < qs.length),
      ∃ ci, getKey (n + j) sel = some ci ∧ ci < (qs.get ⟨j, h⟩).choices.length) →
    ∃ items, evalMCItems sel n qs = some items ∧ items.length = qs.length ∧
      (items.filter (fun it => jsTruthy it.isCorrectVal)).length =
        ((qs.enumFrom n).filter (fun p => mcHitAt sel p.1 p.2)).length := by
  induction qs with
  | nil => exact fun n _ => ⟨[], rfl, rfl, rfl⟩
  | cons q tl ih =>
    intro n hAns
    obtain ⟨ci, hci, hlt⟩ := hAns 0 (Nat.succ_pos _)
    rw [Nat.add_zero] at hci
    have hch : q.choices[ci]? = some q.choices[ci] := List.getElem?_eq_getElem hlt
    obtain ⟨items, hit, hlen, hcount⟩ := ih (n + 1) (fun j h => by
      obtain ⟨ci2, h1, h2⟩ := hAns (j + 1) (Nat.succ_lt_succ h)
      rw [show n + (j + 1) = n + 1 + j by omega] at h1
      exact ⟨ci2, h1, h2⟩)
    refine ⟨⟨q.question, (q.choices[ci]).get? "text", (q.choices[ci]).get? "isCorrect"⟩ :: items,
      ?_, by simpa using hlen, ?_⟩
    · show (match evalMCItem sel n q with
        | none => none
        | some it => (evalMCItems sel (n + 1) tl).map (it :: ·)) = _
      rw [show evalMCItem sel n q =
        some ⟨q.question, (q.choices[ci]).get? "text", (q.choices[ci]).get? "isCorrect"⟩ by
          unfold evalMCItem
          rw [hci]
          dsimp only
          rw [hch]]
      rw [hit]
      rfl
    · rw [List.enumFrom_cons, List.filter_cons, List.filter_cons]
      have hhit : mcHitAt sel n q = jsTruthy ((q.choices[ci]).get? "isCorrect") := by
        unfold mcHitAt
        rw [hci]
        dsimp only
        rw [hch]
      by_cases hb : jsTruthy ((q.choices[ci]).get? "isCorrect") = true
      · simp only [hb, hhit, if_true, List.length_cons, hcount]
      · simp only [Bool.not_eq_true] at hb
        simp only [hb, hhit, Bool.false_eq_true, if_false, hcount]

lemma enumFrom_snd_mem {α : Type} (l : List α) : ∀ (n : Nat) (p : Nat × α),
    p ∈ l.enumFrom n → p.2 ∈ l := by
  induction l with
  | nil => intro n p h; cases h
  | cons a tl ih =>
    intro n p h
    rw [List.enumFrom_cons] at h
    rcases List.mem_cons.mp h with h | h
    · subst h; exact List.mem_cons_self _ _
    · exact List.mem_cons_of_mem _ (ih (n + 1) p h)

lemma mem_of_getElem_some {α : Type} {l : List α} {i : Nat} {a : α}
    (h : l[i]? = some a) : a ∈ l := by
  obtain ⟨hlt, rfl⟩ := List.getElem?_eq_some_iff.mp h
  exact List.getElem_mem hlt

lemma hit_eq_spec (sel : List (Nat × Nat)) (i : Nat) (q : QuestionN)
    (hWF : ∀ c ∈ q.choices, ∃ b, c.get? "isCorrect" = some (.bool b)) :
    mcHitAt sel i q = specHitAt sel i q := by
  unfold mcHitAt specHitAt
  rcases h1 : getKey i sel with _ | ci
  · rfl
  · dsimp only
    rcases h2 : q.choices[ci]? with _ | c
    · rfl
    · dsimp only
      obtain ⟨b, hb⟩ := hWF c (mem_of_getElem_some h2)
      rw [hb]
      cases b <;> rfl

/-- C2 (amended): whenever every question has a recorded in-range choice
and the choices carry boolean `isCorrect` fields, the multiple-choice
evaluation succeeds and reports exactly `round(100 * correct / total)`
with `correct` the number of questions whose recorded choice has
`isCorrect = true`; the evaluation message carries that score.  (A
question with no recorded choice does not count as incorrect: it makes
the evaluation throw — see the counterexample.) -/
theorem c2_mc_score (qs : List QuestionN) (sel : List (Nat × Nat))
    (hne : qs ≠ [])
    (hAns : ∀ j (h : j < qs.length),
      ∃ ci, getKey j sel = some ci ∧ ci < (qs.get ⟨j, h⟩).choices.length)
    (hWF : ∀ q ∈ qs, ∀ c ∈ q.choices, ∃ b, c.get? "isCorrect" = some (.bool b)) :
    ∃ items, evalMCItems sel 0 qs = some items ∧
      (items.filter (fun it => jsTruthy it.isCorrectVal)).length = specCorrectCount qs sel ∧
      evalScoreOf items = round ((100 : Rat) * specCorrectCount qs sel / qs.length) ∧
      mcEvalMsgs qs sel = some
        ([mkMsg .genId
            (evaluationText (round ((100 : Rat) * specCorrectCount qs sel / qs.length))
              (specCorrectCount qs sel) qs.length) false (some .evaluation) .noData]
          ++ (items.enum.filterMap (mcFeedbackMsg qs sel))
          ++ [mkMsg .genId "Glückwunsch! Du hast alle Fragen beantwortet." false none .noData]) := by
  obtain ⟨items, hit, hlen, hcount⟩ := evalMCItems_sound sel qs 0 (fun j h => by
    obtain ⟨ci, h1, h2⟩ := hAns j h
    exact ⟨ci, by rwa [Nat.zero_add], h2⟩)
  have hfc : ((qs.enumFrom 0).filter (fun p => mcHitAt sel p.1 p.2)).length
      = specCorrectCount qs sel := by
    unfold specCorrectCount
    congr 1
    apply List.filter_congr
    intro p hp
    exact hit_eq_spec sel p.1 p.2 (hWF p.2 (enumFrom_snd_mem qs 0 p hp))
  have hcnt : (items.filter (fun it => jsTruthy it.isCorrectVal)).length
      = specCorrectCount qs sel := by rw [hcount, hfc]
  have hscore : evalScoreOf items = round ((100 : Rat) * specCorrectCount qs sel / qs.length) := by
    unfold evalScoreOf jsRound
    rw [hcnt, hlen]
    congr 1
    rw [div_mul_eq_mul_div, mul_comm]
  refine ⟨items, hit, hcnt, hscore, ?_⟩
  unfold mcEvalMsgs
  rw [hit]
  simp only [hcnt, hlen, hscore]

/-- The concrete one-question list of the C2 instances. -/
def c2q : List QuestionN := [⟨"Frage?", [choiceJson ⟨"Antwort A", true⟩]⟩]

/-- The recorded choices of the C2 witness (the single question
answered with choice 0). -/
def c2sel : List (Nat × Nat) := [(0, 0)]

/-- C2 witness: the amended score computation on a session with one
correctly answered question (score 100). -/
theorem c2_mc_score_witness :
    (c2q ≠ []) ∧
    (∃ items, evalMCItems c2sel 0 c2q = some items ∧
      (items.filter (fun it => jsTruthy it.isCorrectVal)).length = specCorrectCount c2q c2sel ∧
      evalScoreOf items = round ((100 : Rat) * specCorrectCount c2q c2sel / c2q.length) ∧
      mcEvalMsgs c2q c2sel = some
        ([mkMsg .genId
            (evaluationText (round ((100 : Rat) * specCorrectCount c2q c2sel / c2q.length))
              (specCorrectCount c2q c2sel) c2q.length) false (some .evaluation) .noData]
          ++ (items.enum.filterMap (mcFeedbackMsg c2q c2sel))
          ++ [mkMsg .genId "Glückwunsch! Du hast alle Fragen beantwortet." false none .noData])) := by
  have hne : c2q ≠ [] := by simp [c2q]
  have hAns : ∀ j (h : j < c2q.length),
      ∃ ci, getKey j c2sel = some ci ∧ ci < (c2q.get ⟨j, h⟩).choices.length := by
    intro j h
    have hj : j = 0 := by
      simp only [c2q, List.length_singleton] at h
      omega
    subst hj
    exact ⟨0, rfl, by simp [c2q]⟩
  have hWF : ∀ q ∈ c2q, ∀ c ∈ q.choices, ∃ b, c.get? "isCorrect" = some (.bool b) := by
    intro q hq c hc
    simp only [c2q, List.mem_singleton] at hq
    subst hq
    simp only [choiceJson, List.mem_singleton] at hc
    subst hc
    exact ⟨true, rfl⟩
  exact ⟨hne, c2_mc_score c2q c2sel hne hAns hWF⟩

/-- A multiple-choice session whose single question has no recorded
choice. -/
def c2StateUnanswered : QState :=
  { initQState with
    answerType := .multiple
    currentQuestions := c2q
    selectedChoices := []
    messages := [] }

/-- C2 counterexample: with one unanswered question the claim predicts
the score `round(100 * 0 / 1) = 0`; instead the answer mapping throws on
the `undefined` recorded choice (`undefined !== null` passes the guard),
the `catch` appends the evaluation error message, and no score message
is produced. -/
theorem c2_counterexample :
    evalMCItems [] 0 c2q = none ∧
    ((evaluateAnswersFn appVue none c2StateUnanswered).messages.all
      (fun m => m.mtype != some MType.evaluation)) = true ∧
    ((evaluateAnswersFn appVue none c2StateUnanswered).messages.getLast?).map (fun m => m.text)
      = some evalErrorText := by
  refine ⟨rfl, by decide, by decide⟩

/-! ### Claim C3 (index monotonicity and bounds) -/

/-- A message whose story payload (if any) has a nonempty question
list. -/
def storySafe (m : Message) : Prop :=
  ∀ sd, m.mdata = MData.storyD sd → sd.questions ≠ []

/-- Actions whose attached backend response carries at least one
question (the bound fails for an empty backend question list; see the
amended claim). -/
def goodAction : UAction → Bool
  | .selectAnswerType _ (some sd) => !sd.questions.isEmpty
  | _ => true

/-- The session invariant behind the index bounds. -/
structure QInv (s : QState) : Prop where
  lower : -1 ≤ s.currentQuestionIndex
  upper : s.currentQuestionIndex ≤ (s.currentQuestions.length : Int)
  started : s.questionsStarted = true →
    0 ≤ s.currentQuestionIndex ∧ s.currentQuestionIndex < (s.currentQuestions.length : Int)
  fresh : s.continueButtonClicked = false →
    s.currentQuestionIndex = -1 ∧ s.questionsStarted = false
  stories : ∀ m ∈ s.messages, storySafe m

lemma storySafe_mk (id1 : MsgId) (t : String) (b : Bool) (mt : Option MType) (md : MData)
    (h : ∀ sd, md ≠ MData.storyD sd) : storySafe (mkMsg id1 t b mt md) := by
  intro sd hsd
  exact absurd hsd (h sd)

lemma storySafe_noData (id1 : MsgId) (t : String) (b : Bool) (mt : Option MType) :
    storySafe (mkMsg id1 t b mt MData.noData) :=
  storySafe_mk _ _ _ _ _ (fun sd h => MData.noConfusion h)

lemma QInv.of_preserved {s s2 : QState} (h : QInv s)
    (h1 : s2.currentQuestionIndex = s.currentQuestionIndex)
    (h2 : s2.currentQuestions = s.currentQuestions)
    (h3 : s2.questionsStarted = s.questionsStarted)
    (h4 : s2.continueButtonClicked = s.continueButtonClicked)
    (h5 : ∀ m ∈ s2.messages, m ∈ s.messages ∨ storySafe m) : QInv s2 := by
  refine ⟨by rw [h1]; exact h.lower, by rw [h1, h2]; exact h.upper,
    fun hs => by rw [h1, h2]; exact h.started (h3 ▸ hs),
    fun hc => by rw [h1, h3]; exact h.fresh (h4 ▸ hc), fun m hm => ?_⟩
  rcases h5 m hm with hm2 | hm2
  · exact h.stories m hm2
  · exact hm2

lemma QInv.initial : QInv initQState := by
  refine ⟨by norm_num [initQState], by norm_num [initQState],
    fun hs => by simp [initQState] at hs, fun _ => ⟨rfl, rfl⟩, fun m hm => ?_⟩
  simp only [initQState, List.mem_singleton] at hm
  subst hm
  intro sd hsd
  exact MData.noConfusion hsd

lemma getAtInt_bounds {α : Type} {l : List α} {i : Int} {x : α} (h : getAtInt l i = some x) :
    0 ≤ i ∧ i < (l.length : Int) := by
  unfold getAtInt at h
  split at h
  · exact absurd h (by simp)
  · rename_i hneg
    have h0 : 0 ≤ i := not_lt.mp hneg
    have hlt := (List.getElem?_eq_some_iff.mp h).1
    exact ⟨h0, by omega⟩

lemma showCurrentQuestion_facts (s : QState) :
    (showCurrentQuestion s).currentQuestionIndex = s.currentQuestionIndex ∧
    (showCurrentQuestion s).currentQuestions = s.currentQuestions ∧
    (showCurrentQuestion s).questionsStarted = s.questionsStarted ∧
    (showCurrentQuestion s).continueButtonClicked = s.continueButtonClicked ∧
    ∀ m ∈ (showCurrentQuestion s).messages, m ∈ s.messages ∨ storySafe m := by
  unfold showCurrentQuestion
  rcases hq : getAtInt s.currentQuestions s.currentQuestionIndex with _ | q
  · exact ⟨rfl, rfl, rfl, rfl, fun m hm => Or.inl hm⟩
  · refine ⟨rfl, rfl, rfl, rfl, fun m hm => ?_⟩
    rcases List.mem_append.mp hm with hm2 | hm2
    · exact Or.inl hm2
    · simp only [List.mem_singleton] at hm2
      subst hm2
      exact Or.inr (storySafe_mk _ _ _ _ _ (fun sd h => MData.noConfusion h))

lemma selectTopicFn_facts (t : String) (s : QState) :
    (selectTopicFn t s).currentQuestionIndex = s.currentQuestionIndex ∧
    (selectTopicFn t s).currentQuestions = s.currentQuestions ∧
    (selectTopicFn t s).questionsStarted = s.questionsStarted ∧
    (selectTopicFn t s).continueButtonClicked = s.continueButtonClicked ∧
    ∀ m ∈ (selectTopicFn t s).messages, m ∈ s.messages ∨ storySafe m := by
  unfold selectTopicFn
  by_cases h : s.selectedTopic = ""
  · rw [if_neg (by simp [h])]
    refine ⟨rfl, rfl, rfl, rfl, fun m hm => ?_⟩
    simp only [List.append_assoc, List.mem_append, List.mem_singleton] at hm
    rcases hm with hm2 | hm2 | hm2
    · exact Or.inl hm2
    · subst hm2; exact Or.inr (storySafe_noData _ _ _ _)
    · subst hm2
      exact Or.inr (storySafe_mk _ _ _ _ _ (fun sd hh => MData.noConfusion hh))
  · rw [if_pos h]
    exact ⟨rfl, rfl, rfl, rfl, fun m hm => Or.inl hm⟩

lemma selectAnswerTypeFn_facts (v : Variant) (ty : AType) (r : Option StoryData) (s : QState)
    (hr : ∀ sd, r = some sd → sd.questions ≠ []) :
    (selectAnswerTypeFn v ty r s).currentQuestionIndex = s.currentQuestionIndex ∧
    (selectAnswerTypeFn v ty r s).currentQuestions = s.currentQuestions ∧
    (selectAnswerTypeFn v ty r s).questionsStarted = s.questionsStarted ∧
    (selectAnswerTypeFn v ty r s).continueButtonClicked = s.continueButtonClicked ∧
    ∀ m ∈ (selectAnswerTypeFn v ty r s).messages, m ∈ s.messages ∨ storySafe m := by
  unfold selectAnswerTypeFn
  by_cases hg : (v.guardAnswerType && s.answerTypeSelected) = true
  · rw [if_pos hg]
    exact ⟨rfl, rfl, rfl, rfl, fun m hm => Or.inl hm⟩
  · rw [if_neg hg]
    by_cases hv : v.guardAnswerType = true <;>
    · first
      | rw [if_pos hv]
      | rw [if_neg hv]
      rcases r with _ | sd <;>
      · refine ⟨rfl, rfl, rfl, rfl, fun m hm => ?_⟩
        simp only [List.mem_append, List.mem_singleton] at hm
        rcases hm with hm2 | hm2
        · rcases List.mem_filter.mp hm2 with ⟨hm3, -⟩
          simp only [List.append_assoc, List.mem_append, List.mem_singleton] at hm3
          rcases hm3 with hm4 | hm4 | hm4
          · exact Or.inl hm4
          · subst hm4; exact Or.inr (storySafe_noData _ _ _ _)
          · subst hm4; exact Or.inr (storySafe_noData _ _ _ _)
        · subst hm2
          first
          | exact Or.inr (storySafe_noData _ _ _ _)
          | exact Or.inr (fun sd2 hsd => by
              simp only [mkMsg] at hsd
              cases hsd
              exact hr _ rfl)

lemma advanceQuestion_facts (v : Variant) (s : QState) :
    (advanceQuestion v s).currentQuestionIndex = s.currentQuestionIndex + 1 ∧
    (advanceQuestion v s).currentQuestions = s.currentQuestions ∧
    (advanceQuestion v s).continueButtonClicked = s.continueButtonClicked ∧
    ((advanceQuestion v s).questionsStarted = true →
      (s.questionsStarted = true ∧
        s.currentQuestionIndex + 1 < (s.currentQuestions.length : Int))) ∧
    ∀ m ∈ (advanceQuestion v s).messages, m ∈ s.messages ∨ storySafe m := by
  unfold advanceQuestion
  by_cases hlt : s.currentQuestionIndex + 1 < (s.currentQuestions.length : Int)
  · rw [if_pos hlt]
    obtain ⟨f1, f2, f3, f4, f5⟩ :=
      showCurrentQuestion_facts { s with currentQuestionIndex := s.currentQuestionIndex + 1 }
    exact ⟨f1, f2, f4, fun hs => ⟨f3 ▸ hs, hlt⟩, f5⟩
  · rw [if_neg hlt]
    refine ⟨rfl, rfl, rfl, fun hs => by simp at hs, fun m hm => ?_⟩
    rcases List.mem_append.mp hm with hm2 | hm2
    · exact Or.inl hm2
    · refine Or.inr ?_
      unfold completionMsgList at hm2
      split at hm2
      · split at hm2
        · simp only [List.mem_singleton] at hm2
          subst hm2
          exact storySafe_noData _ _ _ _
        · cases hm2
      · simp only [List.mem_singleton] at hm2
        subst hm2
        exact storySafe_noData _ _ _ _

lemma goToNextQuestion_mc_cases (v : Variant) (s : QState) :
    ((goToNextQuestion v false s).currentQuestionIndex = s.currentQuestionIndex ∧
     (goToNextQuestion v false s).currentQuestions = s.currentQuestions ∧
     (goToNextQuestion v false s).questionsStarted = s.questionsStarted ∧
     (goToNextQuestion v false s).continueButtonClicked = s.continueButtonClicked ∧
     (goToNextQuestion v false s).messages = s.messages) ∨
    (0 ≤ s.currentQuestionIndex ∧
     s.currentQuestionIndex < (s.currentQuestions.length : Int) ∧
     ∃ s2 : QState, goToNextQuestion v false s = advanceQuestion v s2 ∧
       s2.currentQuestionIndex = s.currentQuestionIndex ∧
       s2.currentQuestions = s.currentQuestions ∧
       s2.questionsStarted = s.questionsStarted ∧
       s2.continueButtonClicked = s.continueButtonClicked ∧
       (∀ m ∈ s2.messages, m ∈ s.messages ∨ storySafe m)) := by
  unfold goToNextQuestion
  rw [if_neg (by simp)]
  rcases hq : getAtInt s.currentQuestions s.currentQuestionIndex with _ | q
  · exact Or.inl ⟨rfl, rfl, rfl, rfl, rfl⟩
  · obtain ⟨h0, hlt⟩ := getAtInt_bounds hq
    dsimp only
    rcases hsel : getKeyInt s.currentQuestionIndex s.selectedChoices with _ | ci
    · exact Or.inl ⟨rfl, rfl, rfl, rfl, rfl⟩
    · dsimp only
      rcases hch : q.choices[ci]? with _ | choice
      · exact Or.inl ⟨rfl, rfl, rfl, rfl, rfl⟩
      · refine Or.inr ⟨h0, hlt, _, rfl, rfl, rfl, rfl, rfl, fun m hm => ?_⟩
        rcases List.mem_append.mp hm with hm2 | hm2
        · exact Or.inl hm2
        · simp only [List.mem_singleton] at hm2
          subst hm2
          exact Or.inr (storySafe_noData _ _ _ _)

lemma mcFeedbackMsg_mdata (qs : List QuestionN) (sel : List (Nat × Nat)) (p : Nat × QAItem)
    (m : Message) (h : mcFeedbackMsg qs sel p = some m) : m.mdata = MData.noData := by
  unfold mcFeedbackMsg at h
  rcases hq : qs[p.1]? with _ | q
  · rw [hq] at h
    exact absurd h (by simp)
  · rw [hq] at h
    dsimp only at h
    split at h
    · cases h
      rfl
    · exact absurd h (by simp)

lemma mcEvalMsgs_mdata (qs : List QuestionN) (sel : List (Nat × Nat)) (msgs : List Message)
    (h : mcEvalMsgs qs sel = some msgs) : ∀ m ∈ msgs, m.mdata = MData.noData := by
  unfold mcEvalMsgs at h
  rcases hi : evalMCItems sel 0 qs with _ | items
  · rw [hi] at h
    exact absurd h (by simp)
  · rw [hi] at h
    dsimp only at h
    cases h
    intro m hm
    simp only [List.append_assoc, List.mem_append, List.mem_singleton] at hm
    rcases hm with hm2 | hm2 | hm2
    · subst hm2; rfl
    · obtain ⟨p, hp, hfm⟩ := List.mem_filterMap.mp hm2
      exact mcFeedbackMsg_mdata qs sel p m hfm
    · subst hm2; rfl

lemma evaluateAnswersFn_facts (v : Variant) (r : Option EvalResult) (s : QState) :
    (evaluateAnswersFn v r s).currentQuestionIndex = s.currentQuestionIndex ∧
    (evaluateAnswersFn v r s).currentQuestions = s.currentQuestions ∧
    (evaluateAnswersFn v r s).continueButtonClicked = s.continueButtonClicked ∧
    (evaluateAnswersFn v r s).questionsStarted = false ∧
    ∀ m ∈ (evaluateAnswersFn v r s).messages, m ∈ s.messages ∨ storySafe m := by
  unfold evaluateAnswersFn
  dsimp only
  by_cases ha : s.answerType = AType.multiple
  · rw [if_pos ha]
    rcases hmc : mcEvalMsgs s.currentQuestions s.selectedChoices with _ | msgs <;>
      refine ⟨rfl, rfl, rfl, rfl, fun m hm => ?_⟩
    · rcases List.mem_append.mp hm with hmA | hmA
      · rcases List.mem_append.mp hmA with hmB | hmB
        · exact Or.inl hmB
        · simp only [List.mem_singleton] at hmB
          subst hmB
          exact Or.inr (storySafe_noData _ _ _ _)
      · simp only [List.mem_singleton] at hmA
        subst hmA
        exact Or.inr (storySafe_noData _ _ _ _)
    · rcases List.mem_append.mp hm with hmA | hmA
      · rcases List.mem_append.mp hmA with hmB | hmB
        · rcases List.mem_append.mp hmB with hmC | hmC
          · exact Or.inl hmC
          · simp only [List.mem_singleton] at hmC
            subst hmC
            exact Or.inr (storySafe_noData _ _ _ _)
        · have hmd := mcEvalMsgs_mdata _ _ _ hmc m hmB
          exact Or.inr (fun sd hsd => by rw [hmd] at hsd; exact MData.noConfusion hsd)
      · simp only [List.mem_singleton] at hmA
        subst hmA
        exact Or.inr (fun sd hsd => MData.noConfusion hsd)
  · rw [if_neg ha]
    rcases r with _ | res
    · refine ⟨rfl, rfl, rfl, rfl, fun m hm => ?_⟩
      rcases List.mem_append.mp hm with hmA | hmA
      · rcases List.mem_append.mp hmA with hmB | hmB
        · exact Or.inl hmB
        · simp only [List.mem_singleton] at hmB
          subst hmB
          exact Or.inr (storySafe_noData _ _ _ _)
      · simp only [List.mem_singleton] at hmA
        subst hmA
        exact Or.inr (storySafe_noData _ _ _ _)
    · dsimp only
      by_cases hf : (res.feedback != "") = true
      · rw [if_pos hf]
        refine ⟨rfl, rfl, rfl, rfl, fun m hm => ?_⟩
        rcases List.mem_append.mp hm with hmA | hmA
        · rcases List.mem_append.mp hmA with hmB | hmB
          · rcases List.mem_append.mp hmB with hmC | hmC
            · rcases List.mem_append.mp hmC with hmD | hmD
              · exact Or.inl hmD
              · simp only [List.mem_singleton] at hmD
                subst hmD
                exact Or.inr (storySafe_noData _ _ _ _)
            · simp only [List.mem_singleton] at hmC
              subst hmC
              exact Or.inr (storySafe_noData _ _ _ _)
          · obtain ⟨e, -, he⟩ := List.mem_map.mp hmB
            subst he
            exact Or.inr (storySafe_noData _ _ _ _)
        · simp only [List.mem_singleton] at hmA
          subst hmA
          exact Or.inr (fun sd hsd => MData.noConfusion hsd)
      · rw [if_neg hf]
        refine ⟨rfl, rfl, rfl, rfl, fun m hm => ?_⟩
        rcases List.mem_append.mp hm with hmA | hmA
        · rcases List.mem_append.mp hmA with hmB | hmB
          · exact Or.inl hmB
          · simp only [List.mem_singleton] at hmB
            subst hmB
            exact Or.inr (storySafe_noData _ _ _ _)
        · simp only [List.mem_singleton] at hmA
          subst hmA
          exact Or.inr (fun sd hsd => MData.noConfusion hsd)

lemma goToNextQuestion_text (v : Variant) (s : QState) :
    goToNextQuestion v true s = advanceQuestion v s := rfl

lemma submitRecord_facts (answer : String) (s : QState) :
    (submitRecord answer s).currentQuestionIndex = s.currentQuestionIndex ∧
    (submitRecord answer s).currentQuestions = s.currentQuestions ∧
    (submitRecord answer s).questionsStarted = s.questionsStarted ∧
    (submitRecord answer s).continueButtonClicked = s.continueButtonClicked ∧
    (submitRecord answer s).answerType = s.answerType ∧
    (submitRecord answer s).selectedChoices =
      setKey s.currentQuestionIndex.toNat 0 s.selectedChoices ∧
    ∀ m ∈ (submitRecord answer s).messages, m ∈ s.messages ∨ storySafe m := by
  refine ⟨rfl, rfl, rfl, rfl, rfl, rfl, fun m hm => ?_⟩
  rcases List.mem_append.mp hm with hm2 | hm2
  · exact Or.inl hm2
  · simp only [List.mem_singleton] at hm2
    subst hm2
    exact Or.inr (storySafe_noData _ _ _ _)

lemma submitFinish_facts (v : Variant) (r : Option EvalResult) (u : QState) :
    (submitFinish v r u).currentQuestionIndex = u.currentQuestionIndex ∧
    (submitFinish v r u).currentQuestions = u.currentQuestions ∧
    (submitFinish v r u).continueButtonClicked = u.continueButtonClicked ∧
    ((submitFinish v r u).questionsStarted = true → u.questionsStarted = true) ∧
    ∀ m ∈ (submitFinish v r u).messages, m ∈ u.messages ∨ storySafe m := by
  unfold submitFinish
  split
  · obtain ⟨e1, e2, e3, e4, e5⟩ := evaluateAnswersFn_facts v r u
    refine ⟨e1, e2, e3, fun hs => ?_, e5⟩
    rw [e4] at hs
    exact absurd hs (by simp)
  · exact ⟨rfl, rfl, rfl, fun hs => hs, fun m hm => Or.inl hm⟩

lemma submitTextAnswerFn_facts (v : Variant) (answer : String) (r : Option EvalResult)
    (s : QState) (ha : answer ≠ "") :
    (submitTextAnswerFn v answer r s).currentQuestionIndex = s.currentQuestionIndex + 1 ∧
    (submitTextAnswerFn v answer r s).currentQuestions = s.currentQuestions ∧
    (submitTextAnswerFn v answer r s).continueButtonClicked = s.continueButtonClicked ∧
    ((submitTextAnswerFn v answer r s).questionsStarted = true →
      (s.questionsStarted = true ∧
        s.currentQuestionIndex + 1 < (s.currentQuestions.length : Int))) ∧
    ∀ m ∈ (submitTextAnswerFn v answer r s).messages, m ∈ s.messages ∨ storySafe m := by
  unfold submitTextAnswerFn
  rw [if_neg ha, goToNextQuestion_text]
  obtain ⟨r1, r2, r3, r4, r5, r6, r7⟩ := submitRecord_facts answer s
  obtain ⟨a1, a2, a3, a4, a5⟩ := advanceQuestion_facts v (submitRecord answer s)
  obtain ⟨f1, f2, f3, f4, f5⟩ :=
    submitFinish_facts v r (advanceQuestion v (submitRecord answer s))
  refine ⟨by rw [f1, a1, r1], by rw [f2, a2, r2], by rw [f3, a3, r4], fun hs => ?_,
    fun m hm => ?_⟩
  · obtain ⟨hs1, hs2⟩ := a4 (f4 hs)
    rw [r3] at hs1
    rw [r1, r2] at hs2
    exact ⟨hs1, hs2⟩
  · rcases f5 m hm with hm2 | hm2
    · rcases a5 m hm2 with hm3 | hm3
      · rcases r7 m hm3 with hm4 | hm4
        · exact Or.inl hm4
        · exact Or.inr hm4
      · exact Or.inr hm3
    · exact Or.inr hm2

lemma showQuestionsFn_run (parse : String → Option Json) (v : Variant) (sd : StoryData)
    (s : QState) (h : (v.guardContinue && s.continueButtonClicked) = false) :
    (showQuestionsFn parse v sd s).currentQuestionIndex = 0 ∧
    (showQuestionsFn parse v sd s).currentQuestions.length = sd.questions.length ∧
    (showQuestionsFn parse v sd s).questionsStarted = true ∧
    (showQuestionsFn parse v sd s).continueButtonClicked =
      (v.guardContinue || s.continueButtonClicked) ∧
    ∀ m ∈ (showQuestionsFn parse v sd s).messages, m ∈ s.messages ∨ storySafe m := by
  unfold showQuestionsFn
  rw [if_neg (by simp [h])]
  dsimp only
  by_cases hv : v.guardContinue = true
  · rw [if_pos hv, hv]
    refine ⟨by rw [(showCurrentQuestion_facts _).1],
      by rw [(showCurrentQuestion_facts _).2.1]; exact List.length_map _ _,
      by rw [(showCurrentQuestion_facts _).2.2.1],
      by rw [(showCurrentQuestion_facts _).2.2.2.1]; rfl, fun m hm => ?_⟩
    have h5 := (showCurrentQuestion_facts _).2.2.2.2 m hm
    rcases h5 with h5 | h5
    · exact Or.inl h5
    · exact Or.inr h5
  · rw [if_neg hv]
    have hv2 : v.guardContinue = false := Bool.eq_false_iff.mpr hv
    rw [hv2]
    refine ⟨by rw [(showCurrentQuestion_facts _).1],
      by rw [(showCurrentQuestion_facts _).2.1]; exact List.length_map _ _,
      by rw [(showCurrentQuestion_facts _).2.2.1],
      by rw [(showCurrentQuestion_facts _).2.2.2.1]; rfl, fun m hm => ?_⟩
    have h5 := (showCurrentQuestion_facts _).2.2.2.2 m hm
    rcases h5 with h5 | h5
    · exact Or.inl h5
    · exact Or.inr h5

lemma selectAnswerTypeFn_idx (v : Variant) (ty : AType) (r : Option StoryData) (s : QState) :
    (selectAnswerTypeFn v ty r s).currentQuestionIndex = s.currentQuestionIndex := by
  unfold selectAnswerTypeFn
  by_cases hg : (v.guardAnswerType && s.answerTypeSelected) = true
  · rw [if_pos hg]
  · rw [if_neg hg]
    by_cases hv : v.guardAnswerType = true
    · rw [if_pos hv]
      rcases r with _ | sd <;> rfl
    · rw [if_neg hv]
      rcases r with _ | sd <;> rfl

lemma qinv_step (parse : String → Option Json) (a : UAction) (s : QState)
    (hg : goodAction a = true) (h : QInv s) : QInv (step parse guardedVariant a s) := by
  cases a with
  | selectTopic t =>
    simp only [step]
    split
    · obtain ⟨f1, f2, f3, f4, f5⟩ := selectTopicFn_facts t s
      exact h.of_preserved f1 f2 f3 f4 f5
    · exact h
  | selectAnswerType ty r =>
    simp only [step]
    split
    · have hr : ∀ sd, r = some sd → sd.questions ≠ [] := by
        intro sd hsd
        subst hsd
        simp only [goodAction, Bool.not_eq_true'] at hg
        exact fun he => by rw [he] at hg; exact absurd hg (by simp)
      obtain ⟨f1, f2, f3, f4, f5⟩ := selectAnswerTypeFn_facts guardedVariant ty r s hr
      exact h.of_preserved f1 f2 f3 f4 f5
    · exact h
  | clickContinue k =>
    simp only [step]
    rcases hk : s.messages[k]? with _ | m
    · exact h
    · dsimp only
      split
      · rename_i sd hmt hmd
        by_cases hc : s.continueButtonClicked = true
        · rw [if_pos (by simp [guardedVariant, hc])]
          exact h
        · have hcf : s.continueButtonClicked = false := Bool.eq_false_iff.mpr hc
          rw [if_neg (by simp [guardedVariant, hcf])]
          have hsdne : sd.questions ≠ [] :=
            h.stories m (mem_of_getElem_some hk) sd hmd
          obtain ⟨g1, g2, g3, g4, g5⟩ :=
            showQuestionsFn_run parse guardedVariant sd s (by simp [guardedVariant, hcf])
          have hlen : 0 < ((showQuestionsFn parse guardedVariant sd s).currentQuestions.length : Int) := by
            rw [g2]
            exact_mod_cast List.length_pos.mpr hsdne
          refine ⟨by rw [g1]; norm_num, by rw [g1]; omega, fun _ => ?_, fun hcb => ?_, ?_⟩
          · rw [g1]
            exact ⟨le_refl 0, hlen⟩
          · rw [g4] at hcb
            simp [guardedVariant] at hcb
          · intro m2 hm2
            rcases g5 m2 hm2 with hm3 | hm3
            · exact h.stories m2 hm3
            · exact hm3
      · exact h
  | selectChoice k ci =>
    simp only [step]
    rcases hk : s.messages[k]? with _ | m
    · exact h
    · dsimp only
      split
      · split
        · exact h.of_preserved rfl rfl rfl rfl (fun m2 hm2 => Or.inl hm2)
        · exact h
      · exact h
  | clickNext k =>
    simp only [step]
    rcases hk : s.messages[k]? with _ | m
    · exact h
    · dsimp only
      split
      · split
        · rcases goToNextQuestion_mc_cases guardedVariant s with
            ⟨f1, f2, f3, f4, f5⟩ | ⟨h0, hlt, s2, heq, e1, e2, e3, e4, e5⟩
          · exact h.of_preserved f1 f2 f3 f4
              (fun m2 hm2 => Or.inl (by rw [f5] at hm2; exact hm2))
          · rw [heq]
            obtain ⟨a1, a2, a3, a4, a5⟩ := advanceQuestion_facts guardedVariant s2
            have hl := h.lower
            refine ⟨by rw [a1, e1]; omega, by rw [a1, e1, a2, e2]; omega,
              fun hs => ?_, fun hcb => ?_, ?_⟩
            · obtain ⟨hs1, hs2⟩ := a4 hs
              rw [e1, e2] at hs2
              rw [a1, e1, a2, e2]
              exact ⟨by omega, hs2⟩
            · rw [a3, e4] at hcb
              obtain ⟨hidx, -⟩ := h.fresh hcb
              omega
            · intro m2 hm2
              rcases a5 m2 hm2 with hm3 | hm3
              · rcases e5 m2 hm3 with hm4 | hm4
                · exact h.stories m2 hm4
                · exact hm4
              · exact hm3
        · exact h
      · exact h
  | submitText a r =>
    simp only [step]
    split
    · rename_i hcond
      simp only [Bool.and_eq_true, decide_eq_true_eq, bne_iff_ne, ne_eq] at hcond
      obtain ⟨⟨⟨⟨hstart, -⟩, -⟩, -⟩, htrim⟩ := hcond
      obtain ⟨hs0, hslt⟩ := h.started hstart
      obtain ⟨f1, f2, f3, f4, f5⟩ :=
        submitTextAnswerFn_facts guardedVariant (jsTrim a) r s htrim
      refine ⟨by rw [f1]; omega, by rw [f1, f2]; omega, fun hs => ?_, fun hcb => ?_, ?_⟩
      · obtain ⟨-, hs2⟩ := f4 hs
        rw [f1, f2]
        exact ⟨by omega, hs2⟩
      · rw [f3] at hcb
        obtain ⟨-, hstf⟩ := h.fresh hcb
        rw [hstart] at hstf
        exact absurd hstf (by simp)
      · intro m2 hm2
        rcases f5 m2 hm2 with hm3 | hm3
        · exact h.stories m2 hm3
        · exact hm3
    · exact h
  | restart =>
    simp only [step]
    split
    · exact QInv.initial
    · exact h

lemma step_mono (parse : String → Option Json) (a : UAction) (s : QState)
    (h : QInv s) (hr : a ≠ UAction.restart) :
    s.currentQuestionIndex ≤ (step parse guardedVariant a s).currentQuestionIndex := by
  cases a with
  | selectTopic t =>
    simp only [step]
    split
    · exact le_of_eq (selectTopicFn_facts t s).1.symm
    · exact le_refl _
  | selectAnswerType ty r =>
    simp only [step]
    split
    · exact le_of_eq (selectAnswerTypeFn_idx guardedVariant ty r s).symm
    · exact le_refl _
  | clickContinue k =>
    simp only [step]
    rcases hk : s.messages[k]? with _ | m
    · exact le_refl _
    · dsimp only
      split
      · rename_i sd hmt hmd
        by_cases hc : s.continueButtonClicked = true
        · rw [if_pos (by simp [guardedVariant, hc])]
        · have hcf : s.continueButtonClicked = false := Bool.eq_false_iff.mpr hc
          rw [if_neg (by simp [guardedVariant, hcf])]
          obtain ⟨hidx, -⟩ := h.fresh hcf
          rw [(showQuestionsFn_run parse guardedVariant sd s (by simp [guardedVariant, hcf])).1]
          omega
      · exact le_refl _
  | selectChoice k ci =>
    simp only [step]
    rcases hk : s.messages[k]? with _ | m
    · exact le_refl _
    · dsimp only
      split
      · split
        · exact le_refl _
        · exact le_refl _
      · exact le_refl _
  | clickNext k =>
    simp only [step]
    rcases hk : s.messages[k]? with _ | m
    · exact le_refl _
    · dsimp only
      split
      · split
        · rcases goToNextQuestion_mc_cases guardedVariant s with
            ⟨f1, -⟩ | ⟨h0, hlt, s2, heq, e1, -⟩
          · rw [f1]
          · rw [heq, (advanceQuestion_facts guardedVariant s2).1, e1]
            omega
        · exact le_refl _
      · exact le_refl _
  | submitText a r =>
    simp only [step]
    split
    · rename_i hcond
      simp only [Bool.and_eq_true, decide_eq_true_eq, bne_iff_ne, ne_eq] at hcond
      obtain ⟨-, htrim⟩ := hcond
      rw [(submitTextAnswerFn_facts guardedVariant (jsTrim a) r s htrim).1]
      omega
    · exact le_refl _
  | restart => exact absurd rfl hr

lemma qinv_run (parse : String → Option Json) (acts : List UAction) (s : QState)
    (h : QInv s) (hg : ∀ a ∈ acts, goodAction a = true) :
    QInv (runActs parse guardedVariant acts s) := by
  induction acts generalizing s with
  | nil => exact h
  | cons a tl ih =>
    exact ih (step parse guardedVariant a s)
      (qinv_step parse a s (hg a (List.mem_cons_self a tl)) h)
      (fun b hb => hg b (List.mem_cons_of_mem a hb))

/-- C3 (amended): in the guarded copy of the flow, for every sequence of
user actions whose story responses carry at least one question,
`currentQuestionIndex` always lies in `[-1, currentQuestions.length]`,
and every further non-restart user action leaves it non-decreasing
(restart discards the session and starts a new one).  (In `src/App.vue`
itself the continue button is neither disabled nor guarded and re-running
`showQuestions` resets the index to `0` — see the counterexample; and
with an empty backend question list a free-text submission pushes the
index to `length + 1`.) -/
theorem c3_index_invariant (parse : String → Option Json) (acts : List UAction)
    (hg : ∀ a ∈ acts, goodAction a = true) :
    (-1 ≤ (runActs parse guardedVariant acts initQState).currentQuestionIndex ∧
     (runActs parse guardedVariant acts initQState).currentQuestionIndex ≤
       ((runActs parse guardedVariant acts initQState).currentQuestions.length : Int)) ∧
    ∀ a2, a2 ≠ UAction.restart →
      (runActs parse guardedVariant acts initQState).currentQuestionIndex ≤
        (step parse guardedVariant a2
          (runActs parse guardedVariant acts initQState)).currentQuestionIndex := by
  have hq := qinv_run parse acts initQState QInv.initial hg
  exact ⟨⟨hq.lower, hq.upper⟩, fun a2 h2 => step_mono parse a2 _ hq h2⟩

/-- The guarded-variant witness trace for C3. -/
def c3Acts : List UAction :=
  [.selectTopic "Sport", .selectAnswerType .multiple (some sdSport), .clickContinue 4]

/-- C3 witness: the amended bounds and monotonicity on a concrete
guarded-variant session. -/
theorem c3_index_invariant_witness :
    (∀ a ∈ c3Acts, goodAction a = true) ∧
    ((-1 ≤ (runActs parseNone guardedVariant c3Acts initQState).currentQuestionIndex ∧
      (runActs parseNone guardedVariant c3Acts initQState).currentQuestionIndex ≤
        ((runActs parseNone guardedVariant c3Acts initQState).currentQuestions.length : Int)) ∧
     ∀ a2, a2 ≠ UAction.restart →
       (runActs parseNone guardedVariant c3Acts initQState).currentQuestionIndex ≤
         (step parseNone guardedVariant a2
           (runActs parseNone guardedVariant c3Acts initQState)).currentQuestionIndex) := by
  exact ⟨by decide, c3_index_invariant parseNone c3Acts (by decide)⟩

/-- C3 counterexample: in `src/App.vue` the continue button of the story
message is rendered without a disabled attribute and `showQuestions` has
no guard — clicking it again after both questions are answered resets
`currentQuestionIndex` from `2` back to `0`, so the index is not
monotonically non-decreasing. -/
theorem c3_counterexample :
    (runActs parseNone appVue c4Trace initQState).currentQuestionIndex = 2 ∧
    (step parseNone appVue (.clickContinue 4)
      (runActs parseNone appVue c4Trace initQState)).currentQuestionIndex = 0 := by
  refine ⟨by decide, by decide⟩
